import Mathlib

/-!
Shallow embedding of the Bluetooth LE Audio channel state machine
(subsys/bluetooth/host/audio/chan.c): the channel / endpoint / capability
data model, the listening pool (static array `enabling`), the link
registry, the unicast-group pool and the protocol operations.  External
collaborators (capability callbacks, ISO transport requests, group
create/terminate) are represented by explicit result arguments, and the
calls actually issued are recorded in an event log so that theorems can
speak about which callbacks were invoked.
-/

namespace AudioChan

abbrev ChanId := Nat
abbrev EpId := Nat
abbrev CapId := Nat

/-- Channel-level state (BT_AUDIO_CHAN_IDLE / _CONFIGURED / _STREAMING). -/
inductive ChanState
  | idle | configured | streaming
  deriving DecidableEq

/-- ASE protocol state (BT_ASCS_ASE_STATE_*). -/
inductive ASEState
  | idle | codecConfigured | qosConfigured | enabling | streaming | disabling | releasing
  deriving DecidableEq

/-- Endpoint kind.  Modelled from the spec: endpoint.h is not in the tree;
the spec lists the kinds Local unicast, Remote unicast, Broadcast source
and Broadcast sink. -/
inductive EpKind
  | epLocal | epRemote | bcastSrc | bcastSnk
  deriving DecidableEq

/-- Capability role (BT_AUDIO_SOURCE / BT_AUDIO_SINK). -/
inductive CapType
  | source | sink
  deriving DecidableEq

/-- The only codec attribute chan.c reads is the codec id. -/
structure Codec where
  id : Nat := 0
  deriving DecidableEq

/-- Codec QoS parameters (struct bt_codec_qos fields read by chan.c). -/
structure QoS where
  interval : Nat := 0
  framing : Nat := 0
  phy : Nat := 0
  sdu : Nat := 0
  rtn : Nat := 0
  latency : Nat := 0
  pd : Nat := 0
  deriving DecidableEq

/-- Presence of the capability operation callbacks (struct
bt_audio_capability_ops; any callback pointer may be NULL). -/
structure CapOps where
  has_config : Bool := true
  has_reconfig : Bool := true
  has_qos : Bool := true
  has_enable : Bool := true
  has_metadata : Bool := true
  has_disable : Bool := true
  has_start : Bool := true
  has_stop : Bool := true
  has_release : Bool := true
  deriving DecidableEq

/-- Capability: codec role, operation vtable (may be NULL) and QoS
preference bounds (struct bt_audio_capability). -/
structure Cap where
  codec_id : Nat := 0
  typ : CapType := .sink
  ops : Option CapOps := none
  pref_latency : Nat := 0
  pref_pd_min : Nat := 0
  pref_pd_max : Nat := 0
  deriving DecidableEq

/-- Transport binding (struct bt_iso_chan as far as chan.c reads it):
`bound` models chan->iso->iso, i.e. whether an ISO connection object is
attached. -/
structure IsoChan where
  bound : Bool := false
  deriving DecidableEq

/-- A logical audio channel (struct bt_audio_chan). -/
structure Chan where
  state : ChanState := .idle
  conn : Option Nat := none
  cap : Option CapId := none
  codec : Option Codec := none
  qos : Option QoS := none
  iso : Option IsoChan := none
  links : List ChanId := []
  ep : Option EpId := none
  deriving DecidableEq

/-- True when the channel has no connected transport binding
(chan->iso == NULL or chan->iso->iso == NULL). -/
def Chan.isoUnbound (ch : Chan) : Bool :=
  match ch.iso with
  | none => true
  | some i => !i.bound

/-- An endpoint (struct bt_audio_ep as far as chan.c reads it). -/
structure Ep where
  state : ASEState := .idle
  kind : EpKind := .epLocal
  cig_id : Nat := 0
  cis_id : Nat := 0
  chan : Option ChanId := none
  deriving DecidableEq

def Ep.isBroadcastSrc (e : Ep) : Bool :=
  match e.kind with
  | .bcastSrc => true
  | _ => false

def Ep.isBroadcastSnk (e : Ep) : Bool :=
  match e.kind with
  | .bcastSnk => true
  | _ => false

def Ep.isBroadcast (e : Ep) : Bool :=
  e.isBroadcastSrc || e.isBroadcastSnk

/-- A unicast-group pool slot (struct bt_audio_unicast_group).  `cig`
identifies the CIG by the channel owning its first (and, in this code,
only) CIS: unicast_groups[i].cig->cis[0] == that channel's iso. -/
structure UGroup where
  chans : List ChanId := []
  cig : Option ChanId := none
  deriving DecidableEq

/-- Which capability callback was invoked. -/
inductive CbKind
  | config | reconfig | qosOp | enable | metadata | disable | start | stop | release
  deriving DecidableEq

/-- Observable external interactions issued by chan.c. -/
inductive Ev
  | cb (c : ChanId) (k : CbKind)
  | isoDisc (c : ChanId)
  | cigTerm (c : ChanId)
  deriving DecidableEq

/-- Whole-module state: the channel / endpoint / capability objects, the
listening pool (static array `enabling`), the unicast group pool, the
`server` registration flag of bt_audio_chan_iso_listen, and the event
log of external calls. -/
structure Sys where
  chans : List Chan := []
  eps : List Ep := []
  caps : List Cap := []
  enabling : List (Option ChanId) := []
  groups : List UGroup := []
  server : Bool := false
  evs : List Ev := []
  deriving DecidableEq

def getChan (s : Sys) (c : ChanId) : Chan := s.chans.getD c {}
def getEp (s : Sys) (e : EpId) : Ep := s.eps.getD e {}
def getCap (s : Sys) (k : CapId) : Cap := s.caps.getD k {}
def getGroup (s : Sys) (g : Nat) : UGroup := s.groups.getD g {}

def setChan (s : Sys) (c : ChanId) (x : Chan) : Sys :=
  { s with chans := s.chans.set c x }

def setEp (s : Sys) (e : EpId) (x : Ep) : Sys :=
  { s with eps := s.eps.set e x }

def setGroupChans (s : Sys) (g : Nat) (l : List ChanId) : Sys :=
  { s with groups := s.groups.set g { getGroup s g with chans := l } }

/-- chan->ep dereference (defaults are only reached outside the ids the
theorems quantify over). -/
def chanEp (s : Sys) (c : ChanId) : Ep := getEp s ((getChan s c).ep.getD 0)

def chanCap (s : Sys) (c : ChanId) : Cap := getCap s ((getChan s c).cap.getD 0)

/-! Zephyr errno values; the functions return their negations. -/

def EPERM : Int := 1
def ENOENT : Int := 2
def ENOMEM : Int := 12
def EINVAL : Int := 22
def ENOSPC : Int := 28
def EBADMSG : Int := 77
def EALREADY : Int := 120
def ENOTCONN : Int := 128
def ENOTSUP : Int := 134

/-- Modelled from the spec: bt_audio_ep_attach (endpoint.c is not in the
tree).  The Configure/Reconfigure rows say the channel is attached to the
endpoint; attach is modelled as setting the mutual references. -/
def bt_audio_ep_attach (s : Sys) (e : EpId) (c : ChanId) : Sys :=
  let s1 := setEp s e { getEp s e with chan := some c }
  setChan s1 c { getChan s1 c with ep := some e }

/-- Modelled from the spec: bt_audio_ep_detach (endpoint.c is not in the
tree).  Transitioning to Idle detaches the channel from its endpoint;
detach is modelled as clearing the mutual references. -/
def bt_audio_ep_detach (s : Sys) (e : EpId) (c : ChanId) : Sys :=
  let s1 := setEp s e { getEp s e with chan := none }
  setChan s1 c { getChan s1 c with ep := none }

/-- Modelled from the spec: bt_audio_ep_set_state (endpoint.c is not in
the tree) stores the new ASE protocol state; the ASE notification
encoding is external. -/
def bt_audio_ep_set_state (s : Sys) (e : EpId) (st : ASEState) : Sys :=
  setEp s e { getEp s e with state := st }

/-- chan.c: chan_attach. -/
def chan_attach (s : Sys) (cn : Nat) (c : ChanId) (e : EpId) (k : CapId)
    (cd : Codec) : Sys :=
  let s1 := setChan s c { getChan s c with conn := some cn, cap := some k, codec := some cd }
  bt_audio_ep_attach s1 e c

/-- chan.c: bt_audio_chan_config.  The capability's config callback
allocates the channel; `cbRet` is the channel it returns (none = NULL). -/
def bt_audio_chan_config (s : Sys) (conn : Option Nat) (e : EpId)
    (k? : Option CapId) (cd? : Option Codec) (cbRet : Option ChanId) :
    Option ChanId × Sys :=
  match conn, k?, cd? with
  | some cn, some k, some cd =>
    match (getCap s k).ops with
    | none => (none, s)
    | some ops =>
      if ¬((getEp s e).state = .idle ∨ (getEp s e).state = .codecConfigured ∨
            (getEp s e).state = .qosConfigured) then (none, s)
      else if (getCap s k).codec_id ≠ cd.id then (none, s)
      else if ¬ops.has_config then (none, s)
      else
        match cbRet with
        | none => (none, { s with evs := s.evs ++ [.cb 0 .config] })
        | some ch =>
          let s1 := { s with evs := s.evs ++ [.cb ch .config] }
          let s2 := setChan s1 ch { getChan s1 ch with links := [] }
          let s3 := chan_attach s2 cn ch e k cd
          if (getEp s3 e).kind = .epLocal then
            (some ch, bt_audio_ep_set_state s3 e .codecConfigured)
          else (some ch, s3)
  | _, _, _ => (none, s)

/-- chan.c: bt_audio_chan_enabling (is the channel in the listening
pool?). -/
def bt_audio_chan_enabling (s : Sys) (c : ChanId) : Bool :=
  s.enabling.any (fun x => decide (x = some c))

/-- chan.c: bt_audio_chan_linked. -/
def bt_audio_chan_linked (s : Sys) (c1 c2 : Option ChanId) : Bool :=
  match c1, c2 with
  | some a, some b => decide (a = b) || decide (b ∈ (getChan s a).links)
  | _, _ => false

/-- chan.c: bt_audio_chan_iso_linked (same ACL connection, same CIG id
and same CIS id). -/
def bt_audio_chan_iso_linked (s : Sys) (c1 : Option ChanId) (c2 : ChanId) : Bool :=
  match c1 with
  | none => false
  | some a =>
    decide ((getChan s a).conn = (getChan s c2).conn) &&
    decide ((chanEp s a).cig_id = (chanEp s c2).cig_id) &&
    decide ((chanEp s a).cis_id = (chanEp s c2).cis_id)

/-- chan.c: bt_audio_chan_link. -/
def bt_audio_chan_link (s : Sys) (c1 c2 : Option ChanId) : Int × Sys :=
  match c1, c2 with
  | some a, some b =>
    if (getChan s a).state ≠ .idle then (-EINVAL, s)
    else if (getChan s b).state ≠ .idle then (-EINVAL, s)
    else if bt_audio_chan_linked s (some a) (some b) then (-EALREADY, s)
    else
      let s1 := setChan s a { getChan s a with links := (getChan s a).links ++ [b] }
      let s2 := setChan s1 b { getChan s1 b with links := (getChan s1 b).links ++ [a] }
      (0, s2)
  | _, _ => (-EINVAL, s)

/-- The shared tail of bt_audio_chan_unlink once both channels are known:
chan2 must be idle, then the two sys_slist_find_and_remove calls (each
removes the first occurrence, -ENOENT on a miss). -/
def unlinkPair (s : Sys) (a b : ChanId) : Int × Sys :=
  if (getChan s b).state ≠ .idle then (-EINVAL, s)
  else if ¬(b ∈ (getChan s a).links) then (-ENOENT, s)
  else
    let s1 := setChan s a { getChan s a with links := (getChan s a).links.erase b }
    if ¬(a ∈ (getChan s1 b).links) then (-ENOENT, s1)
    else (0, setChan s1 b { getChan s1 b with links := (getChan s1 b).links.erase a })

/-- chan.c: bt_audio_chan_unlink.  With chan2 == NULL the code iterates
chan1->links recursively unlinking; sys_slist_remove clears the removed
node's next pointer, so SYS_SLIST_FOR_EACH_CONTAINER stops after the
first removal, leaves chan2 == NULL, and the final
sys_slist_find_and_remove on the NULL container's node misses, returning
-ENOENT.  Hence the NULL-chan2 path unlinks at most the first peer. -/
def bt_audio_chan_unlink (s : Sys) (c1 c2 : Option ChanId) : Int × Sys :=
  match c1 with
  | none => (-EINVAL, s)
  | some a =>
    if (getChan s a).state ≠ .idle then (-EINVAL, s)
    else
      match c2 with
      | some b => unlinkPair s a b
      | none =>
        match (getChan s a).links with
        | [] => (-ENOENT, s)
        | p :: _ =>
          let r := unlinkPair s a p
          if r.1 ≠ 0 then r else (-ENOENT, r.2)

/-- The scan loop of bt_audio_chan_iso_listen over the `enabling` array:
first entry equal to the channel wins (no-op success); otherwise the
first iso-linked entry is linked to the channel (link result discarded);
otherwise the first free slot is remembered and finally taken. -/
def listenScan (s : Sys) (c : ChanId) : List (Option ChanId) → Nat → Option Nat → Int × Sys
  | [], _, none => (-ENOSPC, s)
  | [], _, some j => (0, { s with enabling := s.enabling.set j (some c) })
  | x :: rest, i, free =>
    if x = some c then (0, s)
    else if bt_audio_chan_iso_linked s x c then (0, (bt_audio_chan_link s x (some c)).2)
    else listenScan s c rest (i + 1) (if x = none ∧ free = none then some i else free)

/-- chan.c: bt_audio_chan_iso_listen.  `regRes` is the result
bt_iso_server_register would return (consulted only on the first call). -/
def bt_audio_chan_iso_listen (s : Sys) (c : ChanId) (regRes : Int) : Int × Sys :=
  if s.server then listenScan s c s.enabling 0 none
  else if regRes ≠ 0 then (regRes, s)
  else
    let s1 := { s with server := true }
    listenScan s1 c s1.enabling 0 none

/-- Result of bt_audio_chan_qos: return code, the (possibly
sentinel-overwritten) caller QoS struct, and the new state. -/
structure QosRes where
  ret : Int
  q : QoS
  sys : Sys

/-- chan.c: bt_audio_chan_qos.  `qosRes` is the result of the
capability's qos callback when invoked. -/
def bt_audio_chan_qos (s : Sys) (c : ChanId) (q : QoS) (qosRes regRes : Int) : QosRes :=
  match (getChan s c).ep, (getChan s c).cap with
  | some e, some k =>
    match (getCap s k).ops with
    | none => ⟨-EINVAL, q, s⟩
    | some ops =>
      if (getEp s e).isBroadcast then ⟨-EINVAL, q, s⟩
      else if ¬((getEp s e).state = .codecConfigured ∨ (getEp s e).state = .qosConfigured) then
        ⟨-EBADMSG, q, s⟩
      else if q.interval < 0xff ∨ q.interval > 0xffffff then
        ⟨-ENOTSUP, { q with interval := 0 }, s⟩
      else if q.framing > 1 then ⟨-ENOTSUP, { q with framing := 0xff }, s⟩
      else if q.phy = 0 ∨ q.phy > 7 then ⟨-ENOTSUP, { q with phy := 0 }, s⟩
      else if q.sdu > 0xfff then ⟨-ENOTSUP, { q with sdu := 0xffff }, s⟩
      else if q.latency < 5 ∨ q.latency > 0xfa0 then ⟨-ENOTSUP, { q with latency := 0 }, s⟩
      else if (getCap s k).pref_latency < q.latency then ⟨-ENOTSUP, { q with latency := 0 }, s⟩
      else if ¬((getCap s k).pref_pd_min ≤ q.pd ∧ q.pd ≤ (getCap s k).pref_pd_max) then
        ⟨-ENOTSUP, { q with pd := 0 }, s⟩
      else if ¬ops.has_qos then ⟨0, q, s⟩
      else
        let s1 := { s with evs := s.evs ++ [.cb c .qosOp] }
        if qosRes ≠ 0 then ⟨qosRes, q, s1⟩
        else
          let s2 := setChan s1 c { getChan s1 c with qos := some q }
          if (getEp s2 e).kind = .epLocal then
            let s3 := bt_audio_ep_set_state s2 e .qosConfigured
            ⟨0, q, (bt_audio_chan_iso_listen s3 c regRes).2⟩
          else ⟨0, q, s2⟩
  | _, _ => ⟨-EINVAL, q, s⟩

/-- chan.c: bt_audio_chan_disconnect.  Always clears the channel's
listening-pool entries first; `isoDiscRes` is the result
bt_iso_chan_disconnect would return if a bound transport exists. -/
def bt_audio_chan_disconnect (s : Sys) (c : ChanId) (isoDiscRes : Int) : Int × Sys :=
  let s1 := { s with enabling := s.enabling.map (fun x => if x = some c then none else x) }
  match (getChan s c).iso with
  | none => (-ENOTCONN, s1)
  | some i =>
    if i.bound then (isoDiscRes, { s1 with evs := s1.evs ++ [.isoDisc c] })
    else (-ENOTCONN, s1)

/-- chan.c: bt_audio_chan_start.  `startRes` is the result of the
capability's start callback when invoked. -/
def bt_audio_chan_start (s : Sys) (c : ChanId) (startRes : Int) : Int × Sys :=
  match (getChan s c).ep with
  | none => (-EINVAL, s)
  | some e =>
    if (getEp s e).isBroadcastSrc then (-EINVAL, s)
    else if (getEp s e).isBroadcastSnk then (-EINVAL, s)
    else
      match (getChan s c).cap with
      | none => (-EINVAL, s)
      | some k =>
        match (getCap s k).ops with
        | none => (-EINVAL, s)
        | some ops =>
          if (getEp s e).state ≠ .enabling then (-EBADMSG, s)
          else if ¬ops.has_start then
            (0, if (getEp s e).kind = .epLocal then bt_audio_ep_set_state s e .streaming else s)
          else
            let s1 := { s with evs := s.evs ++ [.cb c .start] }
            if startRes ≠ 0 then (startRes, s1)
            else
              (0, if (getEp s1 e).kind = .epLocal then bt_audio_ep_set_state s1 e .streaming
                  else s1)

/-- chan.c: bt_audio_chan_enable (metadata contents are only forwarded to
the callback and are not modelled).  A local sink channel not already in
the listening pool autonomously starts. -/
def bt_audio_chan_enable (s : Sys) (c : ChanId) (enableRes startRes : Int) : Int × Sys :=
  match (getChan s c).ep, (getChan s c).cap with
  | some e, some k =>
    match (getCap s k).ops with
    | none => (-EINVAL, s)
    | some ops =>
      if (getEp s e).state ≠ .qosConfigured then (-EBADMSG, s)
      else
        let act : Int × Sys :=
          if ¬ops.has_enable then (0, s)
          else ((enableRes, { s with evs := s.evs ++ [.cb c .enable] }))
        if act.1 ≠ 0 then act
        else
          let s1 := act.2
          if (getEp s1 e).kind ≠ .epLocal then (0, s1)
          else
            let s2 := bt_audio_ep_set_state s1 e .enabling
            if bt_audio_chan_enabling s2 c then (0, s2)
            else if (getCap s2 k).typ = .source then (0, s2)
            else bt_audio_chan_start s2 c startRes
  | _, _ => (-EINVAL, s)

/-- chan.c: bt_audio_chan_stop.  When the disconnect reports success the
transition is left to the ISO disconnect callback; only when it does not
(e.g. -ENOTCONN with no bound transport) does the function itself set
QoS Configured and resume listening. -/
def bt_audio_chan_stop (s : Sys) (c : ChanId) (stopRes isoDiscRes regRes : Int) : Int × Sys :=
  match (getChan s c).ep with
  | none => (-EINVAL, s)
  | some e =>
    if (getEp s e).isBroadcastSrc then (-EINVAL, s)
    else if (getEp s e).isBroadcastSnk then (-EINVAL, s)
    else
      match (getChan s c).cap with
      | none => (-EINVAL, s)
      | some k =>
        match (getCap s k).ops with
        | none => (-EINVAL, s)
        | some ops =>
          if (getEp s e).state ≠ .disabling then (-EBADMSG, s)
          else
            let act : Int × Sys :=
              if ¬ops.has_stop then (0, s)
              else ((stopRes, { s with evs := s.evs ++ [.cb c .stop] }))
            if act.1 ≠ 0 then act
            else
              let s1 := act.2
              if (getEp s1 e).kind ≠ .epLocal then (0, s1)
              else
                let d := bt_audio_chan_disconnect s1 c isoDiscRes
                if d.1 = 0 then (0, d.2)
                else
                  let s2 := bt_audio_ep_set_state d.2 e .qosConfigured
                  (0, (bt_audio_chan_iso_listen s2 c regRes).2)

/-- chan.c: bt_audio_chan_disable.  A local sink channel autonomously
stops after entering Disabling. -/
def bt_audio_chan_disable (s : Sys) (c : ChanId)
    (disableRes stopRes isoDiscRes regRes : Int) : Int × Sys :=
  match (getChan s c).ep, (getChan s c).cap with
  | some e, some k =>
    match (getCap s k).ops with
    | none => (-EINVAL, s)
    | some ops =>
      if ¬((getEp s e).state = .enabling ∨ (getEp s e).state = .streaming) then (-EBADMSG, s)
      else
        let act : Int × Sys :=
          if ¬ops.has_disable then (0, s)
          else ((disableRes, { s with evs := s.evs ++ [.cb c .disable] }))
        if act.1 ≠ 0 then act
        else
          let s1 := act.2
          if (getEp s1 e).kind ≠ .epLocal then (0, s1)
          else
            let s2 := bt_audio_ep_set_state s1 e .disabling
            if (getCap s2 k).typ = .source then (0, s2)
            else bt_audio_chan_stop s2 c stopRes isoDiscRes regRes
  | _, _ => (-EINVAL, s)

/-- chan.c: chan_detach.  The broadcast test is taken before the endpoint
reference is cleared, exactly as the code caches it in a local. -/
def chan_detach (s : Sys) (c : ChanId) (isoDiscRes : Int) : Sys :=
  let is_broadcast := (chanEp s c).isBroadcast
  let s1 := bt_audio_ep_detach s ((getChan s c).ep.getD 0) c
  let s2 := setChan s1 c { getChan s1 c with conn := none, cap := none, codec := none }
  if is_broadcast then s2 else (bt_audio_chan_disconnect s2 c isoDiscRes).2

/-- chan.c: bt_audio_chan_set_state (non-debug variant). -/
def bt_audio_chan_set_state (s : Sys) (c : ChanId) (st : ChanState) (isoDiscRes : Int) : Sys :=
  let s1 := if st = .idle then chan_detach s c isoDiscRes else s
  setChan s1 c { getChan s1 c with state := st }

/-- chan.c: bt_audio_chan_release.  `releaseRes` is the result of the
capability's release callback when invoked; -ENOTCONN from it forces the
channel straight to Idle with success. -/
def bt_audio_chan_release (s : Sys) (c : ChanId) (cache : Bool)
    (releaseRes isoDiscRes : Int) : Int × Sys :=
  match (getChan s c).ep with
  | none => (-EINVAL, s)
  | some e =>
    if (getChan s c).state = .idle then (-EALREADY, s)
    else if (getEp s e).isBroadcastSrc then (-EINVAL, s)
    else if (getEp s e).isBroadcastSnk then (-EINVAL, s)
    else
      match (getChan s c).cap with
      | none => (-EINVAL, s)
      | some k =>
        match (getCap s k).ops with
        | none => (-EINVAL, s)
        | some ops =>
          if ¬((getEp s e).state = .codecConfigured ∨ (getEp s e).state = .qosConfigured ∨
                (getEp s e).state = .enabling ∨ (getEp s e).state = .streaming ∨
                (getEp s e).state = .disabling) then (-EBADMSG, s)
          else
            let act : Int × Sys :=
              if ¬ops.has_release then (0, s)
              else ((releaseRes, { s with evs := s.evs ++ [.cb c .release] }))
            if act.1 ≠ 0 then
              if act.1 = -ENOTCONN then (0, bt_audio_chan_set_state act.2 c .idle isoDiscRes)
              else act
            else
              let s1 := act.2
              if (getEp s1 e).kind ≠ .epLocal then (0, s1)
              else if ¬cache then (0, bt_audio_ep_set_state s1 e .releasing)
              else (0, bt_audio_ep_set_state s1 e .codecConfigured)

/-- The scan of bt_audio_cig_terminate over unicast_groups: the first
slot whose CIG has the channel's iso as first CIS is terminated
(`termRes` is bt_iso_cig_terminate's result); on success the slot's CIG
is freed.  Returns none when no slot matches. -/
def cigTermScan (c : ChanId) (termRes : Int) : List UGroup → Option (Int × List UGroup)
  | [] => none
  | g :: rest =>
    if g.cig = some c then
      if termRes = 0 then some (0, { g with cig := none } :: rest)
      else some (termRes, g :: rest)
    else
      match cigTermScan c termRes rest with
      | some (r, l) => some (r, g :: l)
      | none => none

/-- chan.c: bt_audio_cig_terminate.  A channel with no matching CIG is
treated as already terminated (returns 0). -/
def bt_audio_cig_terminate (s : Sys) (c : ChanId) (termRes : Int) : Int × Sys :=
  if (getChan s c).iso = none then (-EINVAL, s)
  else
    match cigTermScan c termRes s.groups with
    | some (r, gs) => (r, { s with groups := gs, evs := s.evs ++ [.cigTerm c] })
    | none => (0, s)

/-- chan.c: bt_audio_chan_reset.  Channels without an owning connection
are skipped entirely; the CIG-terminate result is ignored. -/
def bt_audio_chan_reset (s : Sys) (c : ChanId) (termRes isoDiscRes : Int) : Sys :=
  if (getChan s c).conn = none then s
  else
    let s1 := (bt_audio_cig_terminate s c termRes).2
    let s2 := (bt_audio_chan_unlink s1 (some c) none).2
    bt_audio_chan_set_state s2 c .idle isoDiscRes

/-- First index holding an empty membership list (the `sys_slist_is_empty`
scan of bt_audio_unicast_group_create). -/
def findFreeG : List UGroup → Option Nat
  | [] => none
  | g :: rest =>
    if g.chans = [] then some 0
    else (findFreeG rest).map (fun n => n + 1)

/-- The member-adding loop of bt_audio_unicast_group_create, threading the
group's membership list as a value (channel states are read from `s`,
which the loop never changes).  On a channel in a bad state all
memberships added so far (`done`, in order) are removed again. -/
def groupAddLoop (s : Sys) : List ChanId → List ChanId → List ChanId → Int × List ChanId
  | _, gl, [] => (0, gl)
  | done, gl, c :: rest =>
    if (getChan s c).state = .idle ∨ (getChan s c).state = .configured then
      groupAddLoop s (done ++ [c]) (gl ++ [c]) rest
    else
      (-EALREADY, done.foldl (fun acc x => acc.erase x) gl)

/-- chan.c: bt_audio_unicast_group_create.  `streamCap` is the build-time
bound UNICAST_GROUP_STREAM_CNT (chan.h is not in the tree).  Returns
(error, allocated slot, new state). -/
def bt_audio_unicast_group_create (s : Sys) (chanList : Option (List ChanId))
    (streamCap : Nat) : Int × Option Nat × Sys :=
  match chanList with
  | none => (-EINVAL, none, s)
  | some l =>
    if l.length > streamCap then (-EINVAL, none, s)
    else
      match findFreeG s.groups with
      | none => (-ENOMEM, none, s)
      | some gi =>
        let r := groupAddLoop s [] (getGroup s gi).chans l
        if r.1 = 0 then (0, some gi, setGroupChans s gi r.2)
        else (r.1, none, setGroupChans s gi r.2)

/-- Index of the first free (`none`) slot of a listening-pool list; used
to state which slot the scan takes. -/
def firstFreeIdx : List (Option ChanId) → Nat
  | [] => 0
  | none :: _ => 0
  | some _ :: rest => firstFreeIdx rest + 1

/-- A capability vtable with every callback present. -/
def allOps : CapOps := {}

/-! Concrete systems used by the round-trip scenario, counterexamples and
witnesses. -/

/-- A source capability with all callbacks, codec id 5 and wide
preference bounds. -/
def srcCap : Cap :=
  { codec_id := 5, typ := .source, ops := some allOps,
    pref_latency := 100, pref_pd_min := 10, pref_pd_max := 40000 }

/-- A valid QoS parameter set. -/
def okQoS : QoS :=
  { interval := 10000, framing := 0, phy := 1, sdu := 100, rtn := 2,
    latency := 10, pd := 20000 }

/-- Initial state of the round-trip scenario: one unconfigured channel,
one local endpoint with CIG/CIS ids 1/1, the source capability, a
two-slot listening pool. -/
def rtSys : Sys :=
  { chans := [{}], eps := [{ cig_id := 1, cis_id := 1 }],
    caps := [srcCap], enabling := [none, none] }

/-- Round trip: Configure, SetQoS, Enable, Start, Disable, Stop (all
capability callbacks succeed; the transport is never connected). -/
def rtAfterConfig : Sys :=
  (bt_audio_chan_config rtSys (some 7) 0 (some 0) (some { id := 5 }) (some 0)).2

def rtAfterQos : Sys := (bt_audio_chan_qos rtAfterConfig 0 okQoS 0 0).sys

def rtAfterEnable : Sys := (bt_audio_chan_enable rtAfterQos 0 0 0).2

def rtAfterStart : Sys := (bt_audio_chan_start rtAfterEnable 0 0).2

def rtAfterDisable : Sys := (bt_audio_chan_disable rtAfterStart 0 0 0 0 0).2

def rtStop : Int × Sys := bt_audio_chan_stop rtAfterDisable 0 0 0 0

/-- Counterexample state for C1: a local channel in Disabling whose
transport binding is connected (so bt_iso_chan_disconnect is invoked and
reports success). -/
def cx1Sys : Sys :=
  { chans := [{ state := .configured, conn := some 7, cap := some 0, ep := some 0,
                iso := some { bound := true } }],
    eps := [{ state := .disabling, kind := .epLocal, cig_id := 1, cis_id := 1,
              chan := some 0 }],
    caps := [srcCap], enabling := [none], server := true }

/-- Witness state for C5: two Idle channels on the same connection with
the same CIG/CIS ids and an empty two-slot pool. -/
def wSys5 : Sys :=
  { chans := [{ state := .idle, conn := some 3, ep := some 0 },
              { state := .idle, conn := some 3, ep := some 1 }],
    eps := [{ cig_id := 1, cis_id := 2 }, { cig_id := 1, cis_id := 2 }],
    enabling := [none, none], server := true }

/-- Counterexample state for C5: two channels on the same connection with
the same CIG/CIS ids, but the second one not channel-level Idle. -/
def cx5Sys : Sys :=
  { chans := [{ state := .idle, conn := some 3, ep := some 0 },
              { state := .configured, conn := some 3, ep := some 1 }],
    eps := [{ cig_id := 1, cis_id := 2 }, { cig_id := 1, cis_id := 2 }],
    enabling := [none, none], server := true }

def cx5After : Sys :=
  (bt_audio_chan_iso_listen (bt_audio_chan_iso_listen cx5Sys 0 0).2 1 0).2

/-- Counterexample state for C6 (a): a non-Idle channel with no owning
connection. -/
def cx6aSys : Sys :=
  { chans := [{ state := .configured, conn := none, cap := some 0, ep := some 0 }],
    eps := [{}], caps := [srcCap] }

/-- Counterexample state for C6 (b): an Idle channel with a connection
and two peers. -/
def cx6bSys : Sys :=
  { chans := [{ state := .idle, conn := some 7, ep := some 0, links := [1, 2] },
              { state := .idle, links := [0] },
              { state := .idle, links := [0] }],
    eps := [{}] }

/-- Witness state for C1 (amended): a local channel in Disabling whose
transport was never connected, already present in the listening pool. -/
def wSys1 : Sys :=
  { chans := [{ state := .streaming, conn := some 4, cap := some 0,
                codec := some { id := 5 }, ep := some 0 }],
    eps := [{ state := .disabling, kind := .epLocal, cig_id := 1, cis_id := 1,
              chan := some 0 }],
    caps := [srcCap], enabling := [some 0, none], server := true }

/-- Witness state for C2: a streaming channel with all references set, a
connected transport binding and a listening-pool entry. -/
def wSys2 : Sys :=
  { chans := [{ state := .streaming, conn := some 4, cap := some 0,
                codec := some { id := 5 }, ep := some 0, iso := some { bound := true } }],
    eps := [{ state := .streaming, chan := some 0 }], caps := [srcCap],
    enabling := [some 0, none] }

/-- Witness state for C4: an enabled channel whose capability release
callback will report -ENOTCONN. -/
def wSys4 : Sys :=
  { chans := [{ state := .streaming, conn := some 4, cap := some 0,
                codec := some { id := 5 }, ep := some 0 }],
    eps := [{ state := .enabling, chan := some 0 }], caps := [srcCap] }

/-- Witness state for C7: a valid unicast channel whose endpoint is in
QoS Configured (not Enabling). -/
def wSys7 : Sys :=
  { chans := [{ state := .configured, conn := some 1, cap := some 0, ep := some 0 }],
    eps := [{ state := .qosConfigured }], caps := [srcCap] }

/-- Witness state for C3: a channel in Codec Configured on a local
endpoint with the source capability. -/
def wSys3 : Sys :=
  { chans := [{ state := .configured, conn := some 1, cap := some 0, ep := some 0 }],
    eps := [{ state := .codecConfigured }], caps := [srcCap], enabling := [none] }

/-- Witness states for C9: two unlinked Idle channels, two linked Idle
channels, and a pair with a non-Idle member. -/
def wSys9 : Sys := { chans := [{}, {}] }

def wSys9u : Sys := { chans := [{ links := [1] }, { links := [0] }] }

def wSys9x : Sys := { chans := [{}, { state := .configured }] }

/-- Witness state for C8: channels in Idle, Configured and Streaming
states; pool slot 0 occupied, slot 1 free. -/
def wSys8 : Sys :=
  { chans := [{ state := .idle }, { state := .configured }, { state := .streaming }],
    groups := [{ chans := [9] }, {}] }

/-- Witness state for C10: a channel-level-Idle channel attached to a
broadcast-source endpoint with no capability, so the Idle short-circuit
is observably taken before the broadcast and capability validation. -/
def wSys10 : Sys :=
  { chans := [{ state := .idle, ep := some 0 }], eps := [{ kind := .bcastSrc }] }

/-! ## Helper lemmas -/

theorem listGetD_set {α} (l : List α) (i j : Nat) (a d : α) :
    (l.set i a).getD j d = if i = j ∧ i < l.length then a else l.getD j d := by
  induction l generalizing i j with
  | nil => simp
  | cons x xs ih =>
    cases i with
    | zero =>
      cases j with
      | zero => simp
      | succ j2 => simp
    | succ i2 =>
      cases j with
      | zero => simp
      | succ j2 =>
        simp only [List.set, List.getD_cons_succ, List.length_cons, ih]
        by_cases h1 : i2 = j2 ∧ i2 < xs.length
        · rw [if_pos h1, if_pos (by omega)]
        · rw [if_neg h1, if_neg (by omega)]

theorem listGetD_ge {α} (l : List α) (i : Nat) (d : α) (h : l.length ≤ i) :
    l.getD i d = d := by
  induction l generalizing i with
  | nil => simp
  | cons x xs ih =>
    cases i with
    | zero => simp at h
    | succ i2 =>
      simp only [List.getD_cons_succ]
      exact ih i2 (by simp at h; omega)

theorem getChan_setChan (s : Sys) (c c2 : ChanId) (x : Chan) :
    getChan (setChan s c x) c2 = if c = c2 ∧ c < s.chans.length then x else getChan s c2 := by
  simp only [getChan, setChan]
  exact listGetD_set s.chans c c2 x {}

theorem getEp_setEp (s : Sys) (e e2 : EpId) (x : Ep) :
    getEp (setEp s e x) e2 = if e = e2 ∧ e < s.eps.length then x else getEp s e2 := by
  simp only [getEp, setEp]
  exact listGetD_set s.eps e e2 x {}

theorem getChan_setChan_ne (t : Sys) (c c2 : ChanId) (x : Chan) (h : c ≠ c2) :
    getChan (setChan t c x) c2 = getChan t c2 := by
  rw [getChan_setChan]
  simp [h]

theorem getChan_setChan_self (t : Sys) (c : ChanId) (x : Chan) (h : c < t.chans.length) :
    getChan (setChan t c x) c = x := by
  rw [getChan_setChan]
  simp [h]

theorem getChan_default (s : Sys) (c : ChanId) (h : ¬c < s.chans.length) :
    getChan s c = {} :=
  listGetD_ge _ _ _ (Nat.le_of_not_lt h)

theorem getEp_default (s : Sys) (e : EpId) (h : ¬e < s.eps.length) :
    getEp s e = {} :=
  listGetD_ge _ _ _ (Nat.le_of_not_lt h)

@[simp] theorem getChan_setEp (s : Sys) (e : EpId) (x : Ep) (c : ChanId) :
    getChan (setEp s e x) c = getChan s c := rfl

@[simp] theorem getEp_setChan (s : Sys) (c : ChanId) (x : Chan) (e : EpId) :
    getEp (setChan s c x) e = getEp s e := rfl

@[simp] theorem chans_setEp (s : Sys) (e : EpId) (x : Ep) :
    (setEp s e x).chans = s.chans := rfl

@[simp] theorem eps_setChan (s : Sys) (c : ChanId) (x : Chan) :
    (setChan s c x).eps = s.eps := rfl

@[simp] theorem length_chans_setChan (s : Sys) (c : ChanId) (x : Chan) :
    (setChan s c x).chans.length = s.chans.length := by
  simp [setChan]

@[simp] theorem length_eps_setEp (s : Sys) (e : EpId) (x : Ep) :
    (setEp s e x).eps.length = s.eps.length := by
  simp [setEp]

/-- bt_audio_chan_disconnect only touches the listening pool and the
event log. -/
theorem disconnect_chans (s : Sys) (c : ChanId) (d : Int) :
    ((bt_audio_chan_disconnect s c d).2).chans = s.chans := by
  unfold bt_audio_chan_disconnect
  cases (getChan s c).iso with
  | none => rfl
  | some i =>
    show (if i.bound = true then _ else _ : Int × Sys).2.chans = s.chans
    by_cases hb : i.bound = true <;> simp [hb]

theorem disconnect_eps (s : Sys) (c : ChanId) (d : Int) :
    ((bt_audio_chan_disconnect s c d).2).eps = s.eps := by
  unfold bt_audio_chan_disconnect
  cases (getChan s c).iso with
  | none => rfl
  | some i =>
    show (if i.bound = true then _ else _ : Int × Sys).2.eps = s.eps
    by_cases hb : i.bound = true <;> simp [hb]

@[simp] theorem getChan_disconnect (s : Sys) (c : ChanId) (d : Int) (c2 : ChanId) :
    getChan ((bt_audio_chan_disconnect s c d).2) c2 = getChan s c2 := by
  simp [getChan, disconnect_chans]

@[simp] theorem length_chans_disconnect (s : Sys) (c : ChanId) (d : Int) :
    ((bt_audio_chan_disconnect s c d).2).chans.length = s.chans.length := by
  rw [disconnect_chans]

@[simp] theorem getEp_disconnect (s : Sys) (c : ChanId) (d : Int) (e : EpId) :
    getEp ((bt_audio_chan_disconnect s c d).2) e = getEp s e := by
  simp [getEp, disconnect_eps]

/-- Core of the Idle transition (chan_detach followed by the state
write): every reference of the channel is cleared, whatever the prior
state was. -/
theorem set_state_idle_chan (s : Sys) (c : ChanId) (d : Int) (hc : c < s.chans.length) :
    getChan (bt_audio_chan_set_state s c ChanState.idle d) c =
      { getChan s c with
          state := .idle, ep := none, conn := none, cap := none, codec := none } := by
  by_cases hb : (chanEp s c).isBroadcast
  · simp [bt_audio_chan_set_state, chan_detach, bt_audio_ep_detach, hb, getChan_setChan, hc]
  · simp [bt_audio_chan_set_state, chan_detach, bt_audio_ep_detach, hb, getChan_setChan, hc]

@[simp] theorem enabling_setChan (s : Sys) (c : ChanId) (x : Chan) :
    (setChan s c x).enabling = s.enabling := rfl

@[simp] theorem enabling_setEp (s : Sys) (e : EpId) (x : Ep) :
    (setEp s e x).enabling = s.enabling := rfl

@[simp] theorem evs_setChan (s : Sys) (c : ChanId) (x : Chan) :
    (setChan s c x).evs = s.evs := rfl

@[simp] theorem evs_setEp (s : Sys) (e : EpId) (x : Ep) :
    (setEp s e x).evs = s.evs := rfl

theorem disconnect_enabling (s : Sys) (c : ChanId) (d : Int) :
    ((bt_audio_chan_disconnect s c d).2).enabling
      = s.enabling.map (fun x => if x = some c then none else x) := by
  unfold bt_audio_chan_disconnect
  cases (getChan s c).iso with
  | none => rfl
  | some i =>
    show (if i.bound = true then _ else _ : Int × Sys).2.enabling = _
    by_cases hb : i.bound = true <;> simp [hb]

theorem disconnect_evs (s : Sys) (c : ChanId) (d : Int) :
    ((bt_audio_chan_disconnect s c d).2).evs
      = s.evs ++ (match (getChan s c).iso with
                  | some i => if i.bound then [Ev.isoDisc c] else []
                  | none => []) := by
  unfold bt_audio_chan_disconnect
  cases (getChan s c).iso with
  | none => simp
  | some i =>
    show (if i.bound = true then _ else _ : Int × Sys).2.evs = _
    by_cases hb : i.bound = true <;> simp [hb]

/-- The endpoint side of the Idle transition: the endpoint's channel
back-reference is cleared while its protocol state and kind are
untouched. -/
theorem set_state_idle_ep (s : Sys) (c : ChanId) (e : EpId) (d : Int)
    (hep : (getChan s c).ep = some e) :
    (getEp (bt_audio_chan_set_state s c ChanState.idle d) e).chan = none ∧
    (getEp (bt_audio_chan_set_state s c ChanState.idle d) e).state = (getEp s e).state ∧
    (getEp (bt_audio_chan_set_state s c ChanState.idle d) e).kind = (getEp s e).kind := by
  by_cases hb : (chanEp s c).isBroadcast <;>
    by_cases he : e < s.eps.length <;>
      simp [bt_audio_chan_set_state, chan_detach, bt_audio_ep_detach, hep, hb,
        getEp_setEp, he, getEp_default]

/-- The listening-pool side of the Idle transition of a non-broadcast
channel: every entry referencing the channel is cleared. -/
theorem set_state_idle_enabling (s : Sys) (c : ChanId) (d : Int)
    (hb : (chanEp s c).isBroadcast = false) :
    (bt_audio_chan_set_state s c ChanState.idle d).enabling
      = s.enabling.map (fun x => if x = some c then none else x) := by
  simp [bt_audio_chan_set_state, chan_detach, bt_audio_ep_detach, hb, disconnect_enabling]

/-- The transport side of the Idle transition of a non-broadcast channel
with a connected binding: the ISO disconnect request is issued. -/
theorem set_state_idle_evs (s : Sys) (c : ChanId) (d : Int) (i : IsoChan)
    (hc : c < s.chans.length)
    (hb : (chanEp s c).isBroadcast = false)
    (hiso : (getChan s c).iso = some i) (hbound : i.bound = true) :
    (bt_audio_chan_set_state s c ChanState.idle d).evs = s.evs ++ [Ev.isoDisc c] := by
  simp [bt_audio_chan_set_state, chan_detach, bt_audio_ep_detach, hb, disconnect_evs,
    getChan_setChan, hc, hiso, hbound]

/-! ## Claims -/

/-- Claim C7: for every channel whose (non-broadcast, capability-backed)
endpoint is in a state other than Enabling, Start returns InvalidState
(-EBADMSG) and leaves the whole state — endpoint state, channel, pool and
event log, hence in particular with no capability callback invoked —
unchanged. -/
theorem claim7_start_invalid_state (s : Sys) (c : ChanId) (e : EpId) (k : CapId)
    (ops : CapOps) (startRes : Int)
    (hep : (getChan s c).ep = some e)
    (hsrc : (getEp s e).isBroadcastSrc = false)
    (hsnk : (getEp s e).isBroadcastSnk = false)
    (hcap : (getChan s c).cap = some k)
    (hops : (getCap s k).ops = some ops)
    (hst : (getEp s e).state ≠ ASEState.enabling) :
    bt_audio_chan_start s c startRes = (-EBADMSG, s) := by
  simp [bt_audio_chan_start, hep, hsrc, hsnk, hcap, hops, hst]

/-- Witness for C7: Start on the concrete QoS-Configured channel. -/
theorem claim7_witness :
    bt_audio_chan_start wSys7 0 0 = (-EBADMSG, wSys7) :=
  claim7_start_invalid_state wSys7 0 0 0 allOps 0 (by decide) (by decide) (by decide)
    (by decide) (by decide) (by decide)

/-- Claim C10: Release on a channel whose channel-level state is already
Idle returns AlreadyInState (-EALREADY) with no side effect, and this
happens before the broadcast / capability / endpoint-state validation:
the theorem imposes no constraint on the endpoint kind or state or on the
capability. -/
theorem claim10_release_idle (s : Sys) (c : ChanId) (e : EpId)
    (cache : Bool) (releaseRes isoDiscRes : Int)
    (hep : (getChan s c).ep = some e)
    (hidle : (getChan s c).state = ChanState.idle) :
    bt_audio_chan_release s c cache releaseRes isoDiscRes = (-EALREADY, s) := by
  simp [bt_audio_chan_release, hep, hidle]

/-- Witness for C10: the concrete Idle channel on a broadcast-source
endpoint with no capability still gets -EALREADY and no mutation. -/
theorem claim10_witness :
    bt_audio_chan_release wSys10 0 false 0 0 = (-EALREADY, wSys10) :=
  claim10_release_idle wSys10 0 0 false 0 0 (by decide) (by decide)

theorem getChan_withEvs (s : Sys) (l : List Ev) (c : ChanId) :
    getChan { s with evs := l } c = getChan s c := rfl

theorem getEp_withEvs (s : Sys) (l : List Ev) (e : EpId) :
    getEp { s with evs := l } e = getEp s e := rfl

theorem chanEp_withEvs (s : Sys) (l : List Ev) (c : ChanId) :
    chanEp { s with evs := l } c = chanEp s c := rfl

/-- Claim C2: transitioning a channel to Idle, from any prior state,
always detaches it from its endpoint and clears the capability, codec
and connection references; unless the endpoint is Broadcast it also
removes every listening-pool entry referencing the channel and, when a
connected transport binding exists, issues the transport disconnect. -/
theorem claim2_idle_always_detaches (s : Sys) (c : ChanId) (e : EpId) (d : Int)
    (hep : (getChan s c).ep = some e) :
    (getChan (bt_audio_chan_set_state s c ChanState.idle d) c).state = ChanState.idle ∧
    (getChan (bt_audio_chan_set_state s c ChanState.idle d) c).ep = none ∧
    (getChan (bt_audio_chan_set_state s c ChanState.idle d) c).cap = none ∧
    (getChan (bt_audio_chan_set_state s c ChanState.idle d) c).codec = none ∧
    (getChan (bt_audio_chan_set_state s c ChanState.idle d) c).conn = none ∧
    (getEp (bt_audio_chan_set_state s c ChanState.idle d) e).chan = none ∧
    ((chanEp s c).isBroadcast = false →
      (∀ x ∈ (bt_audio_chan_set_state s c ChanState.idle d).enabling, x ≠ some c) ∧
      (∀ i : IsoChan, (getChan s c).iso = some i → i.bound = true →
        Ev.isoDisc c ∈ (bt_audio_chan_set_state s c ChanState.idle d).evs)) := by
  have hc : c < s.chans.length := by
    by_contra h
    rw [getChan_default s c h] at hep
    simp at hep
  have h1 := set_state_idle_chan s c d hc
  have h2 := set_state_idle_ep s c e d hep
  refine ⟨by rw [h1], by rw [h1], by rw [h1], by rw [h1], by rw [h1], h2.1, ?_⟩
  intro hb
  constructor
  · intro x hx
    rw [set_state_idle_enabling s c d hb] at hx
    obtain ⟨y, hy, hmap⟩ := List.mem_map.1 hx
    by_cases hyc : y = some c
    · rw [hyc] at hmap
      simp at hmap
      simp [← hmap]
    · rw [if_neg hyc] at hmap
      rw [← hmap]
      exact hyc
  · intro i hiso hbound
    rw [set_state_idle_evs s c d i hc hb hiso hbound]
    simp

/-- Witness for C2: the Idle transition on the concrete streaming channel
clears the endpoint reference, clears the endpoint's back-reference and
issues the transport disconnect. -/
theorem claim2_witness :
    (getChan (bt_audio_chan_set_state wSys2 0 ChanState.idle 0) 0).ep = none ∧
    (getEp (bt_audio_chan_set_state wSys2 0 ChanState.idle 0) 0).chan = none ∧
    (∀ x ∈ (bt_audio_chan_set_state wSys2 0 ChanState.idle 0).enabling, x ≠ some 0) ∧
    Ev.isoDisc 0 ∈ (bt_audio_chan_set_state wSys2 0 ChanState.idle 0).evs := by
  have h := claim2_idle_always_detaches wSys2 0 0 0 (by decide)
  have hg := h.2.2.2.2.2.2 (by decide)
  exact ⟨h.2.1, h.2.2.2.2.2.1, hg.1, hg.2 { bound := true } (by decide) (by decide)⟩

/-- Claim C4: Release on a channel whose capability release callback
reports -ENOTCONN forces the channel straight to Idle and returns
success; the endpoint's protocol state is untouched, so it does not
enter Releasing. -/
theorem claim4_release_notconn (s : Sys) (c : ChanId) (e : EpId) (k : CapId) (ops : CapOps)
    (cache : Bool) (isoDiscRes : Int)
    (hep : (getChan s c).ep = some e)
    (hnidle : (getChan s c).state ≠ ChanState.idle)
    (hsrc : (getEp s e).isBroadcastSrc = false)
    (hsnk : (getEp s e).isBroadcastSnk = false)
    (hcap : (getChan s c).cap = some k)
    (hops : (getCap s k).ops = some ops)
    (hrel : ops.has_release = true)
    (hst : (getEp s e).state = .codecConfigured ∨ (getEp s e).state = .qosConfigured ∨
           (getEp s e).state = .enabling ∨ (getEp s e).state = .streaming ∨
           (getEp s e).state = .disabling) :
    (bt_audio_chan_release s c cache (-ENOTCONN) isoDiscRes).1 = 0 ∧
    (getChan (bt_audio_chan_release s c cache (-ENOTCONN) isoDiscRes).2 c).state
      = ChanState.idle ∧
    (getEp (bt_audio_chan_release s c cache (-ENOTCONN) isoDiscRes).2 e).state
      = (getEp s e).state ∧
    (getEp (bt_audio_chan_release s c cache (-ENOTCONN) isoDiscRes).2 e).state
      ≠ ASEState.releasing := by
  have hc : c < s.chans.length := by
    by_contra h
    rw [getChan_default s c h] at hep
    simp at hep
  have hres : bt_audio_chan_release s c cache (-ENOTCONN) isoDiscRes
      = (0, bt_audio_chan_set_state { s with evs := s.evs ++ [Ev.cb c CbKind.release] }
              c ChanState.idle isoDiscRes) := by
    rcases hst with h | h | h | h | h <;>
      simp [bt_audio_chan_release, hep, hnidle, hsrc, hsnk, hcap, hops, hrel, h, ENOTCONN]
  rw [hres]
  set s1 : Sys := { s with evs := s.evs ++ [Ev.cb c CbKind.release] } with hs1
  have hc1 : c < s1.chans.length := hc
  have hep1 : (getChan s1 c).ep = some e := hep
  have h1 := set_state_idle_chan s1 c isoDiscRes hc1
  have h2 := set_state_idle_ep s1 c e isoDiscRes hep1
  refine ⟨rfl, by rw [h1], ?_, ?_⟩
  · rw [h2.2.1]
    rfl
  · rw [h2.2.1]
    have : (getEp s1 e).state = (getEp s e).state := rfl
    rw [this]
    rcases hst with h | h | h | h | h <;> simp [h]

/-- Witness for C4: the concrete enabled channel released with a
-ENOTCONN callback result ends Idle with success and its endpoint not
Releasing. -/
theorem claim4_witness :
    (bt_audio_chan_release wSys4 0 false (-ENOTCONN) 0).1 = 0 ∧
    (getChan (bt_audio_chan_release wSys4 0 false (-ENOTCONN) 0).2 0).state
      = ChanState.idle ∧
    (getEp (bt_audio_chan_release wSys4 0 false (-ENOTCONN) 0).2 0).state
      = (getEp wSys4 0).state ∧
    (getEp (bt_audio_chan_release wSys4 0 false (-ENOTCONN) 0).2 0).state
      ≠ ASEState.releasing :=
  claim4_release_notconn wSys4 0 0 0 allOps false 0 (by decide) (by decide) (by decide)
    (by decide) (by decide) (by decide) (by decide) (by decide)

/-- Claim C9: for a pair of Idle channels (with well-formed, duplicate-free
link registration), Link after a successful Link returns AlreadyInState
without modifying anything, Unlink after a successful Unlink returns
NotFound, and Link on a pair that is not both Idle returns
InvalidArgument. -/
theorem claim9_link_unlink (s : Sys) (a b : ChanId)
    (ha : a < s.chans.length) (hb : b < s.chans.length) (hab : a ≠ b)
    (hia : (getChan s a).state = ChanState.idle)
    (hib : (getChan s b).state = ChanState.idle)
    (hcount : (getChan s a).links.count b ≤ 1) :
    ((bt_audio_chan_link s (some a) (some b)).1 = 0 →
      bt_audio_chan_link (bt_audio_chan_link s (some a) (some b)).2 (some a) (some b)
        = (-EALREADY, (bt_audio_chan_link s (some a) (some b)).2)) ∧
    ((bt_audio_chan_unlink s (some a) (some b)).1 = 0 →
      (bt_audio_chan_unlink (bt_audio_chan_unlink s (some a) (some b)).2
          (some a) (some b)).1 = -ENOENT) ∧
    (∀ t : Sys, ∀ x y : ChanId,
      ((getChan t x).state ≠ ChanState.idle ∨ (getChan t y).state ≠ ChanState.idle) →
      (bt_audio_chan_link t (some x) (some y)).1 = -EINVAL) := by
  refine ⟨?_, ?_, ?_⟩
  · intro hsucc
    have hlink : bt_audio_chan_linked s (some a) (some b) = false := by
      by_contra h
      have h2 : bt_audio_chan_linked s (some a) (some b) = true := by
        simpa using h
      simp [bt_audio_chan_link, hia, hib, h2, EALREADY] at hsucc
    have hres : bt_audio_chan_link s (some a) (some b)
        = (0, setChan (setChan s a { getChan s a with
              links := (getChan s a).links ++ [b] }) b
              { getChan (setChan s a { getChan s a with
                  links := (getChan s a).links ++ [b] }) b with
                  links := (getChan (setChan s a { getChan s a with
                      links := (getChan s a).links ++ [b] }) b).links ++ [a] }) := by
      simp [bt_audio_chan_link, hia, hib, hlink]
    rw [hres]
    simp [bt_audio_chan_link, bt_audio_chan_linked, getChan_setChan, hab, Ne.symm hab,
      ha, hb, hia, hib, EALREADY]
  · intro hsucc
    have hgbX : ∀ X : Chan, getChan (setChan s a X) b = getChan s b :=
      fun X => getChan_setChan_ne s a b X hab
    have hmem : b ∈ (getChan s a).links := by
      by_contra h
      simp [bt_audio_chan_unlink, unlinkPair, hia, hib, h, ENOENT] at hsucc
    have hmem2 : a ∈ (getChan s b).links := by
      by_contra h
      simp [bt_audio_chan_unlink, unlinkPair, hia, hib, hmem, hgbX, h, ENOENT] at hsucc
    have hcnt1 : (getChan s a).links.count b = 1 := by
      have hpos : 0 < (getChan s a).links.count b := List.count_pos_iff.2 hmem
      omega
    have hnomem : ¬b ∈ ((getChan s a).links.erase b) := by
      rw [← List.count_eq_zero, List.count_erase_self]
      omega
    simp [bt_audio_chan_unlink, unlinkPair, hia, hib, hmem, hmem2, hgbX,
      getChan_setChan_ne, getChan_setChan_self, length_chans_setChan, ha, hb, hab,
      Ne.symm hab, hnomem, ENOENT]
  · intro t x y h
    by_cases hx : (getChan t x).state = ChanState.idle
    · have hy : (getChan t y).state ≠ ChanState.idle := by
        rcases h with h | h
        · exact absurd hx h
        · exact h
      simp [bt_audio_chan_link, hx, hy]
    · simp [bt_audio_chan_link, hx]

/-- Witness for C9: repeated Link on the two fresh channels yields
-EALREADY, repeated Unlink on the linked pair yields -ENOENT, and Link
against a Configured channel yields -EINVAL. -/
theorem claim9_witness :
    bt_audio_chan_link (bt_audio_chan_link wSys9 (some 0) (some 1)).2 (some 0) (some 1)
      = (-EALREADY, (bt_audio_chan_link wSys9 (some 0) (some 1)).2) ∧
    (bt_audio_chan_unlink (bt_audio_chan_unlink wSys9u (some 0) (some 1)).2
        (some 0) (some 1)).1 = -ENOENT ∧
    (bt_audio_chan_link wSys9x (some 0) (some 1)).1 = -EINVAL :=
  ⟨(claim9_link_unlink wSys9 0 1 (by decide) (by decide) (by decide) (by decide)
      (by decide) (by decide)).1 (by decide),
   (claim9_link_unlink wSys9u 0 1 (by decide) (by decide) (by decide) (by decide)
      (by decide) (by decide)).2.1 (by decide),
   (claim9_link_unlink wSys9 0 1 (by decide) (by decide) (by decide) (by decide)
      (by decide) (by decide)).2.2 wSys9x 0 1 (by decide)⟩

theorem findFreeG_spec : ∀ (gs : List UGroup) (i : Nat), findFreeG gs = some i →
    (gs.getD i {}).chans = [] := by
  intro gs
  induction gs with
  | nil => intro i h; simp [findFreeG] at h
  | cons g rest ih =>
    intro i h
    by_cases hg : g.chans = []
    · simp [findFreeG, hg] at h
      rw [← h]
      simpa using hg
    · simp [findFreeG, hg] at h
      obtain ⟨j, hj, hji⟩ := h
      rw [← hji]
      simpa using ih j hj

theorem foldl_erase_self : ∀ l : List ChanId,
    List.foldl (fun acc x => acc.erase x) l l = [] := by
  intro l
  induction l with
  | nil => rfl
  | cons x xs ih => simpa [List.erase_cons_head] using ih

theorem groupAddLoop_unwind (s : Sys) (bad : ChanId) (rest : List ChanId)
    (hbad : ¬((getChan s bad).state = ChanState.idle ∨
              (getChan s bad).state = ChanState.configured)) :
    ∀ good done gl,
      (∀ x ∈ good, (getChan s x).state = ChanState.idle ∨
                   (getChan s x).state = ChanState.configured) →
      groupAddLoop s done gl (good ++ bad :: rest)
        = (-EALREADY, (done ++ good).foldl (fun acc x => acc.erase x) (gl ++ good)) := by
  intro good
  induction good with
  | nil =>
    intro done gl _
    simp [groupAddLoop, hbad]
  | cons g gs ih =>
    intro done gl hgood
    have hg := hgood g (by simp)
    have hrest : ∀ x ∈ gs, (getChan s x).state = ChanState.idle ∨
        (getChan s x).state = ChanState.configured :=
      fun x hx => hgood x (by simp [hx])
    simp only [List.cons_append, groupAddLoop, hg, if_pos, List.append_eq]
    rw [ih (done ++ [g]) (gl ++ [g]) hrest]
    simp

theorem getGroup_setGroupChans (s : Sys) (g g2 : Nat) (l : List ChanId) :
    getGroup (setGroupChans s g l) g2
      = if g = g2 ∧ g < s.groups.length then { getGroup s g with chans := l }
        else getGroup s g2 := by
  simp only [getGroup, setGroupChans]
  exact listGetD_set s.groups g g2 _ {}

/-- Claim C8: CreateGroup with a channel count above the per-group
capacity fails with InvalidArgument and changes nothing; CreateGroup on a
list containing a channel that is neither Idle nor Configured removes
every membership added before the offender, returns AlreadyInState, and
leaves every pool slot's membership list as it was. -/
theorem claim8_group_create (s : Sys) :
    (∀ streamCap : Nat, ∀ l : List ChanId, l.length > streamCap →
        bt_audio_unicast_group_create s (some l) streamCap = (-EINVAL, none, s)) ∧
    (∀ streamCap : Nat, ∀ good rest : List ChanId, ∀ bad : ChanId, ∀ gi : Nat,
        (good ++ bad :: rest).length ≤ streamCap →
        findFreeG s.groups = some gi →
        (∀ x ∈ good, (getChan s x).state = ChanState.idle ∨
                     (getChan s x).state = ChanState.configured) →
        ¬((getChan s bad).state = ChanState.idle ∨
          (getChan s bad).state = ChanState.configured) →
        (bt_audio_unicast_group_create s (some (good ++ bad :: rest)) streamCap).1
            = -EALREADY ∧
        (bt_audio_unicast_group_create s (some (good ++ bad :: rest)) streamCap).2.1
            = none ∧
        ∀ g2, (getGroup (bt_audio_unicast_group_create s (some (good ++ bad :: rest))
            streamCap).2.2 g2).chans = (getGroup s g2).chans) := by
  constructor
  · intro streamCap l h
    simp [bt_audio_unicast_group_create, h]
  · intro streamCap good rest bad gi hlen hfree hgood hbad
    have hempty : (getGroup s gi).chans = [] := findFreeG_spec s.groups gi hfree
    have hnot : ¬(good ++ bad :: rest).length > streamCap := by omega
    have hloop := groupAddLoop_unwind s bad rest hbad good [] (getGroup s gi).chans hgood
    rw [hempty] at hloop
    simp only [List.nil_append] at hloop
    have hres : bt_audio_unicast_group_create s (some (good ++ bad :: rest)) streamCap
        = (-EALREADY, none, setGroupChans s gi
            (List.foldl (fun acc x => acc.erase x) good good)) := by
      have hnot2 : ¬streamCap < good.length + (rest.length + 1) := by
        have h3 := hlen
        simp [List.length_append] at h3
        omega
      simp [bt_audio_unicast_group_create, hnot, hnot2, hfree, hempty, hloop, EALREADY]
    rw [hres, foldl_erase_self]
    refine ⟨rfl, rfl, ?_⟩
    intro g2
    rw [getGroup_setGroupChans]
    by_cases hg : gi = g2 ∧ gi < s.groups.length
    · rw [if_pos hg, ← hg.1, hempty]
    · rw [if_neg hg]

/-- Witness for C8: on the concrete pool, a 2-channel list with capacity
1 fails -EINVAL unchanged, and a list whose third channel is Streaming
unwinds and leaves slot 1 (the allocated one) empty. -/
theorem claim8_witness :
    bt_audio_unicast_group_create wSys8 (some [0, 1]) 1 = (-EINVAL, none, wSys8) ∧
    (bt_audio_unicast_group_create wSys8 (some [0, 1, 2]) 5).1 = -EALREADY ∧
    (bt_audio_unicast_group_create wSys8 (some [0, 1, 2]) 5).2.1 = none ∧
    (getGroup (bt_audio_unicast_group_create wSys8 (some [0, 1, 2]) 5).2.2 1).chans
      = [] := by
  have h1 := (claim8_group_create wSys8).1 1 [0, 1] (by decide)
  have h2 := (claim8_group_create wSys8).2 5 [0, 1] [] 2 1 (by decide) (by decide)
    (by decide) (by decide)
  exact ⟨h1, h2.1, h2.2.1, (h2.2.2 1).trans (by decide)⟩

theorem link_evs (s : Sys) (c1 c2 : Option ChanId) :
    ((bt_audio_chan_link s c1 c2).2).evs = s.evs := by
  unfold bt_audio_chan_link
  cases c1 with
  | none => rfl
  | some a =>
    cases c2 with
    | none => rfl
    | some b =>
      dsimp only
      split_ifs <;> rfl

theorem listenScan_evs (s : Sys) (c : ChanId) :
    ∀ (l : List (Option ChanId)) (i : Nat) (f : Option Nat),
      ((listenScan s c l i f).2).evs = s.evs := by
  intro l
  induction l with
  | nil =>
    intro i f
    cases f <;> rfl
  | cons x rest ih =>
    intro i f
    by_cases h1 : x = some c
    · simp [listenScan, h1]
    · by_cases h2 : bt_audio_chan_iso_linked s x c = true
      · simp [listenScan, h1, h2, link_evs]
      · simp [listenScan, h1, h2, ih]

@[simp] theorem evs_ep_set_state (t : Sys) (e : EpId) (st : ASEState) :
    (bt_audio_ep_set_state t e st).evs = t.evs := rfl

theorem iso_listen_evs (s : Sys) (c : ChanId) (r : Int) :
    ((bt_audio_chan_iso_listen s c r).2).evs = s.evs := by
  unfold bt_audio_chan_iso_listen
  by_cases hs : s.server
  · simp only [hs, if_true]
    exact listenScan_evs s c s.enabling 0 none
  · by_cases hr : r ≠ 0
    · simp [hs, hr]
    · simp only [hs, hr, if_false, ite_false, ite_true]
      exact listenScan_evs { s with server := true } c s.enabling 0 none

set_option maxHeartbeats 1600000 in
/-- Claim C3: SetQoS validates each QoS field before invoking the
capability's qos callback; every violation returns -ENOTSUP, overwrites
only the offending field with its sentinel and leaves the state (and the
event log: no callback) untouched; the interval bound is inclusive at
both ends: 0xFE is rejected, 0xFF and 0xFFFFFF pass interval validation
(the interval field is never overwritten), and with all fields valid the
qos callback is invoked. -/
theorem claim3_qos_validation (s : Sys) (c : ChanId) (e : EpId) (k : CapId) (ops : CapOps)
    (q : QoS) (qosRes regRes : Int)
    (hep : (getChan s c).ep = some e)
    (hcap : (getChan s c).cap = some k)
    (hops : (getCap s k).ops = some ops)
    (hbrd : (getEp s e).isBroadcast = false)
    (hst : (getEp s e).state = ASEState.codecConfigured ∨
           (getEp s e).state = ASEState.qosConfigured) :
    ((q.interval < 0xff ∨ q.interval > 0xffffff) →
      bt_audio_chan_qos s c q qosRes regRes = ⟨-ENOTSUP, { q with interval := 0 }, s⟩) ∧
    (0xff ≤ q.interval → q.interval ≤ 0xffffff → 1 < q.framing →
      bt_audio_chan_qos s c q qosRes regRes = ⟨-ENOTSUP, { q with framing := 0xff }, s⟩) ∧
    (0xff ≤ q.interval → q.interval ≤ 0xffffff → q.framing ≤ 1 →
      (q.phy = 0 ∨ q.phy > 7) →
      bt_audio_chan_qos s c q qosRes regRes = ⟨-ENOTSUP, { q with phy := 0 }, s⟩) ∧
    (0xff ≤ q.interval → q.interval ≤ 0xffffff → q.framing ≤ 1 →
      0 < q.phy → q.phy ≤ 7 → 0xfff < q.sdu →
      bt_audio_chan_qos s c q qosRes regRes = ⟨-ENOTSUP, { q with sdu := 0xffff }, s⟩) ∧
    (0xff ≤ q.interval → q.interval ≤ 0xffffff → q.framing ≤ 1 →
      0 < q.phy → q.phy ≤ 7 → q.sdu ≤ 0xfff →
      (q.latency < 5 ∨ q.latency > 0xfa0) →
      bt_audio_chan_qos s c q qosRes regRes = ⟨-ENOTSUP, { q with latency := 0 }, s⟩) ∧
    (0xff ≤ q.interval → q.interval ≤ 0xffffff → q.framing ≤ 1 →
      0 < q.phy → q.phy ≤ 7 → q.sdu ≤ 0xfff →
      5 ≤ q.latency → q.latency ≤ 0xfa0 → (getCap s k).pref_latency < q.latency →
      bt_audio_chan_qos s c q qosRes regRes = ⟨-ENOTSUP, { q with latency := 0 }, s⟩) ∧
    (0xff ≤ q.interval → q.interval ≤ 0xffffff → q.framing ≤ 1 →
      0 < q.phy → q.phy ≤ 7 → q.sdu ≤ 0xfff →
      5 ≤ q.latency → q.latency ≤ 0xfa0 → q.latency ≤ (getCap s k).pref_latency →
      ¬((getCap s k).pref_pd_min ≤ q.pd ∧ q.pd ≤ (getCap s k).pref_pd_max) →
      bt_audio_chan_qos s c q qosRes regRes = ⟨-ENOTSUP, { q with pd := 0 }, s⟩) ∧
    (0xff ≤ q.interval → q.interval ≤ 0xffffff → q.framing ≤ 1 →
      0 < q.phy → q.phy ≤ 7 → q.sdu ≤ 0xfff →
      5 ≤ q.latency → q.latency ≤ 0xfa0 → q.latency ≤ (getCap s k).pref_latency →
      (getCap s k).pref_pd_min ≤ q.pd → q.pd ≤ (getCap s k).pref_pd_max →
      ops.has_qos = true →
      ((bt_audio_chan_qos s c q qosRes regRes).sys).evs
        = s.evs ++ [Ev.cb c CbKind.qosOp]) ∧
    (q.interval = 0xfe →
      bt_audio_chan_qos s c q qosRes regRes = ⟨-ENOTSUP, { q with interval := 0 }, s⟩) ∧
    ((q.interval = 0xff ∨ q.interval = 0xffffff) →
      ((bt_audio_chan_qos s c q qosRes regRes).q).interval = q.interval) := by
  refine ⟨?_, ?_, ?_, ?_, ?_, ?_, ?_, ?_, ?_, ?_⟩
  · intro h
    rcases hst with hs | hs <;> rcases h with h | h <;>
      simp [bt_audio_chan_qos, hep, hcap, hops, hbrd, hs, h]
  · intro h1 h2 h3
    have hiv : ¬(q.interval < 0xff ∨ q.interval > 0xffffff) := by omega
    rcases hst with hs | hs <;>
      simp [bt_audio_chan_qos, hep, hcap, hops, hbrd, hs, hiv, h3]
  · intro h1 h2 h3 h4
    have hiv : ¬(q.interval < 0xff ∨ q.interval > 0xffffff) := by omega
    have hfr : ¬(1 < q.framing) := by omega
    rcases hst with hs | hs <;> rcases h4 with h4 | h4 <;>
      simp [bt_audio_chan_qos, hep, hcap, hops, hbrd, hs, hiv, hfr, h4]
  · intro h1 h2 h3 h4 h5 h6
    have hiv : ¬(q.interval < 0xff ∨ q.interval > 0xffffff) := by omega
    have hfr : ¬(1 < q.framing) := by omega
    have hphy : ¬(q.phy = 0 ∨ q.phy > 7) := by omega
    rcases hst with hs | hs <;>
      simp [bt_audio_chan_qos, hep, hcap, hops, hbrd, hs, hiv, hfr, hphy, h6]
  · intro h1 h2 h3 h4 h5 h6 h7
    have hiv : ¬(q.interval < 0xff ∨ q.interval > 0xffffff) := by omega
    have hfr : ¬(1 < q.framing) := by omega
    have hphy : ¬(q.phy = 0 ∨ q.phy > 7) := by omega
    have hsdu : ¬(0xfff < q.sdu) := by omega
    rcases hst with hs | hs <;> rcases h7 with h7 | h7 <;>
      simp [bt_audio_chan_qos, hep, hcap, hops, hbrd, hs, hiv, hfr, hphy, hsdu, h7]
  · intro h1 h2 h3 h4 h5 h6 h7 h8 h9
    have hiv : ¬(q.interval < 0xff ∨ q.interval > 0xffffff) := by omega
    have hfr : ¬(1 < q.framing) := by omega
    have hphy : ¬(q.phy = 0 ∨ q.phy > 7) := by omega
    have hsdu : ¬(0xfff < q.sdu) := by omega
    have hlat : ¬(q.latency < 5 ∨ q.latency > 0xfa0) := by omega
    rcases hst with hs | hs <;>
      simp [bt_audio_chan_qos, hep, hcap, hops, hbrd, hs, hiv, hfr, hphy, hsdu, hlat, h9]
  · intro h1 h2 h3 h4 h5 h6 h7 h8 h9 h10
    have hiv : ¬(q.interval < 0xff ∨ q.interval > 0xffffff) := by omega
    have hfr : ¬(1 < q.framing) := by omega
    have hphy : ¬(q.phy = 0 ∨ q.phy > 7) := by omega
    have hsdu : ¬(0xfff < q.sdu) := by omega
    have hlat : ¬(q.latency < 5 ∨ q.latency > 0xfa0) := by omega
    have hpref : ¬((getCap s k).pref_latency < q.latency) := by omega
    rcases hst with hs | hs <;>
      simp [bt_audio_chan_qos, hep, hcap, hops, hbrd, hs, hiv, hfr, hphy, hsdu, hlat,
        hpref, h10]
  · intro h1 h2 h3 h4 h5 h6 h7 h8 h9 h10 h11 h12
    have hiv : ¬(q.interval < 0xff ∨ q.interval > 0xffffff) := by omega
    have hfr : ¬(1 < q.framing) := by omega
    have hphy : ¬(q.phy = 0 ∨ q.phy > 7) := by omega
    have hsdu : ¬(0xfff < q.sdu) := by omega
    have hlat : ¬(q.latency < 5 ∨ q.latency > 0xfa0) := by omega
    have hpref : ¬((getCap s k).pref_latency < q.latency) := by omega
    have hpd : (getCap s k).pref_pd_min ≤ q.pd ∧ q.pd ≤ (getCap s k).pref_pd_max :=
      ⟨h10, h11⟩
    rcases hst with hs | hs <;>
      by_cases hqr : qosRes = 0 <;>
        by_cases hkind : (getEp s e).kind = EpKind.epLocal <;>
          simp [bt_audio_chan_qos, hep, hcap, hops, hbrd, hs, hiv, hfr, hphy, hsdu,
            hlat, hpref, hpd, h12, hqr, hkind, iso_listen_evs, getEp_withEvs,
            getChan_withEvs]
  · intro h
    have h2 : q.interval < 0xff ∨ q.interval > 0xffffff := by omega
    rcases hst with hs | hs <;> rcases h2 with h2 | h2 <;>
      simp [bt_audio_chan_qos, hep, hcap, hops, hbrd, hs, h2]
  · intro h
    have hiv : ¬(q.interval < 0xff ∨ q.interval > 0xffffff) := by omega
    by_cases hfr : q.framing > 1
    · simp [bt_audio_chan_qos, hep, hcap, hops, hbrd, hst, hiv, hfr]
    · by_cases hphy : q.phy = 0 ∨ q.phy > 7
      · simp [bt_audio_chan_qos, hep, hcap, hops, hbrd, hst, hiv, hfr, hphy]
      · by_cases hsdu : q.sdu > 0xfff
        · simp [bt_audio_chan_qos, hep, hcap, hops, hbrd, hst, hiv, hfr, hphy, hsdu]
        · by_cases hlat : q.latency < 5 ∨ q.latency > 0xfa0
          · simp [bt_audio_chan_qos, hep, hcap, hops, hbrd, hst, hiv, hfr, hphy, hsdu,
              hlat]
          · by_cases hpref : (getCap s k).pref_latency < q.latency
            · simp [bt_audio_chan_qos, hep, hcap, hops, hbrd, hst, hiv, hfr, hphy,
                hsdu, hlat, hpref]
            · by_cases hpd : (getCap s k).pref_pd_min ≤ q.pd ∧
                  q.pd ≤ (getCap s k).pref_pd_max
              · by_cases hq : ops.has_qos
                · by_cases hqr : qosRes = 0
                  · by_cases hkind : (getEp s e).kind = EpKind.epLocal
                    · simp [bt_audio_chan_qos, hep, hcap, hops, hbrd, hst, hiv, hfr,
                        hphy, hsdu, hlat, hpref, hpd, hq, hqr, hkind, getEp_withEvs,
                        getChan_withEvs]
                    · simp [bt_audio_chan_qos, hep, hcap, hops, hbrd, hst, hiv, hfr,
                        hphy, hsdu, hlat, hpref, hpd, hq, hqr, hkind, getEp_withEvs,
                        getChan_withEvs]
                  · simp [bt_audio_chan_qos, hep, hcap, hops, hbrd, hst, hiv, hfr,
                      hphy, hsdu, hlat, hpref, hpd, hq, hqr]
                · simp [bt_audio_chan_qos, hep, hcap, hops, hbrd, hst, hiv, hfr,
                    hphy, hsdu, hlat, hpref, hpd, hq]
              · simp [bt_audio_chan_qos, hep, hcap, hops, hbrd, hst, hiv, hfr,
                  hphy, hsdu, hlat, hpref, hpd]

/-- Witness for C3: on the concrete channel, interval 0xFE is rejected
with the sentinel and no side effect, 0xFF and 0xFFFFFF pass interval
validation, and a fully valid QoS reaches the qos callback. -/
theorem claim3_witness :
    bt_audio_chan_qos wSys3 0 { okQoS with interval := 0xfe } 0 0
      = ⟨-ENOTSUP, { okQoS with interval := 0 }, wSys3⟩ ∧
    ((bt_audio_chan_qos wSys3 0 { okQoS with interval := 0xff } 0 0).q).interval
      = 0xff ∧
    ((bt_audio_chan_qos wSys3 0 { okQoS with interval := 0xffffff } 0 0).q).interval
      = 0xffffff ∧
    ((bt_audio_chan_qos wSys3 0 okQoS 0 0).sys).evs = [Ev.cb 0 CbKind.qosOp] := by
  refine ⟨?_, ?_, ?_, ?_⟩
  · exact (claim3_qos_validation wSys3 0 0 0 allOps { okQoS with interval := 0xfe } 0 0
      (by decide) (by decide) (by decide) (by decide) (by decide)).2.2.2.2.2.2.2.2.1
      (by decide)
  · exact ((claim3_qos_validation wSys3 0 0 0 allOps { okQoS with interval := 0xff } 0 0
      (by decide) (by decide) (by decide) (by decide) (by decide)).2.2.2.2.2.2.2.2.2
      (by decide)).trans (by decide)
  · exact ((claim3_qos_validation wSys3 0 0 0 allOps
      { okQoS with interval := 0xffffff } 0 0
      (by decide) (by decide) (by decide) (by decide) (by decide)).2.2.2.2.2.2.2.2.2
      (by decide)).trans (by decide)
  · exact ((claim3_qos_validation wSys3 0 0 0 allOps okQoS 0 0
      (by decide) (by decide) (by decide) (by decide) (by decide)).2.2.2.2.2.2.2.1
      (by decide) (by decide) (by decide) (by decide) (by decide) (by decide)
      (by decide) (by decide) (by decide) (by decide) (by decide) (by decide)).trans
      (by decide)

theorem cig_terminate_chans (s : Sys) (c : ChanId) (t : Int) :
    ((bt_audio_cig_terminate s c t).2).chans = s.chans := by
  unfold bt_audio_cig_terminate
  by_cases hiso : (getChan s c).iso = none
  · simp [hiso]
  · simp only [hiso, if_false]
    cases cigTermScan c t s.groups with
    | none => rfl
    | some p =>
      obtain ⟨r, l⟩ := p
      rfl

theorem unlinkPair_chans_length (s : Sys) (a b : ChanId) :
    ((unlinkPair s a b).2).chans.length = s.chans.length := by
  have key : ∀ u : Sys, ((if ¬(a ∈ (getChan u b).links) then ((-ENOENT : Int), u)
      else (0, setChan u b { getChan u b with
        links := (getChan u b).links.erase a })).2).chans.length = u.chans.length := by
    intro u
    by_cases hh : ¬(a ∈ (getChan u b).links)
    · rw [if_pos hh]
    · rw [if_neg hh]
      simp [setChan]
  unfold unlinkPair
  by_cases h1 : (getChan s b).state ≠ ChanState.idle
  · rw [if_pos h1]
  · rw [if_neg h1]
    by_cases h2 : ¬(b ∈ (getChan s a).links)
    · rw [if_pos h2]
    · rw [if_neg h2]
      dsimp only
      rw [key (setChan s a { getChan s a with links := (getChan s a).links.erase b })]
      simp [setChan]

theorem unlink_chans_length (s : Sys) (c1 c2 : Option ChanId) :
    ((bt_audio_chan_unlink s c1 c2).2).chans.length = s.chans.length := by
  unfold bt_audio_chan_unlink
  cases c1 with
  | none => rfl
  | some a =>
    by_cases hst : (getChan s a).state ≠ ChanState.idle
    · simp [hst]
    · simp only [hst, if_false]
      cases c2 with
      | some b => exact unlinkPair_chans_length s a b
      | none =>
        cases hl : (getChan s a).links with
        | nil => rfl
        | cons p rest =>
          by_cases hr : (unlinkPair s a p).1 ≠ 0
          · simp [hr, unlinkPair_chans_length]
          · simp [hr, unlinkPair_chans_length]

/-- Counterexample to C6 as stated: (a) Reset on a channel with no owning
connection does nothing at all — it neither unlinks nor forces Idle; (b)
Reset on a connected channel with two peers unlinks only the first peer,
because the NULL-target unlink traversal stops after one removal: peer 2
stays linked. -/
theorem claim6_counterexample :
    bt_audio_chan_reset cx6aSys 0 0 0 = cx6aSys ∧
    (getChan (bt_audio_chan_reset cx6aSys 0 0 0) 0).state = ChanState.configured ∧
    (2 ∈ (getChan (bt_audio_chan_reset cx6bSys 0 0 0) 0).links ∧
     0 ∈ (getChan (bt_audio_chan_reset cx6bSys 0 0 0) 2).links) ∧
    (1 ∈ (getChan cx6bSys 0).links ∧
     ¬1 ∈ (getChan (bt_audio_chan_reset cx6bSys 0 0 0) 0).links) := by decide

/-- Claim C6 (amended): for every channel with an owning connection,
Reset best-effort terminates the channel's group, attempts the unlink
pass (which removes at most the first peer) and forces the channel to
Idle with all references cleared — for every group-termination result,
so a termination failure is never propagated and Reset always completes;
a channel without an owning connection is left untouched. -/
theorem claim6_reset_amended (s : Sys) (c : ChanId) (cn : Nat) (termRes isoDiscRes : Int)
    (hconn : (getChan s c).conn = some cn) :
    (getChan (bt_audio_chan_reset s c termRes isoDiscRes) c).state = ChanState.idle ∧
    (getChan (bt_audio_chan_reset s c termRes isoDiscRes) c).conn = none ∧
    (getChan (bt_audio_chan_reset s c termRes isoDiscRes) c).cap = none ∧
    (getChan (bt_audio_chan_reset s c termRes isoDiscRes) c).codec = none ∧
    (getChan (bt_audio_chan_reset s c termRes isoDiscRes) c).ep = none ∧
    (∀ t : Sys, ∀ c2 : ChanId, (getChan t c2).conn = none →
      bt_audio_chan_reset t c2 termRes isoDiscRes = t) := by
  have hc : c < s.chans.length := by
    by_contra h
    rw [getChan_default s c h] at hconn
    simp at hconn
  have hnn : ¬(getChan s c).conn = none := by
    rw [hconn]
    simp
  have hres : bt_audio_chan_reset s c termRes isoDiscRes
      = bt_audio_chan_set_state
          ((bt_audio_chan_unlink ((bt_audio_cig_terminate s c termRes).2)
            (some c) none).2) c ChanState.idle isoDiscRes := by
    simp [bt_audio_chan_reset, hnn]
  have hlen : c < ((bt_audio_chan_unlink ((bt_audio_cig_terminate s c termRes).2)
      (some c) none).2).chans.length := by
    rw [unlink_chans_length, cig_terminate_chans]
    exact hc
  have h1 := set_state_idle_chan ((bt_audio_chan_unlink
      ((bt_audio_cig_terminate s c termRes).2) (some c) none).2) c isoDiscRes hlen
  refine ⟨?_, ?_, ?_, ?_, ?_, ?_⟩
  · rw [hres, h1]
  · rw [hres, h1]
  · rw [hres, h1]
  · rw [hres, h1]
  · rw [hres, h1]
  · intro t c2 h
    simp [bt_audio_chan_reset, h]

/-- Witness for C6 (amended): Reset on the concrete connected streaming
channel (with termination result -EIO-like 5) ends Idle with everything
cleared, and Reset on the connection-less channel is a no-op. -/
theorem claim6_witness :
    (getChan (bt_audio_chan_reset wSys2 0 5 0) 0).state = ChanState.idle ∧
    (getChan (bt_audio_chan_reset wSys2 0 5 0) 0).conn = none ∧
    (getChan (bt_audio_chan_reset wSys2 0 5 0) 0).ep = none ∧
    bt_audio_chan_reset cx6aSys 0 5 0 = cx6aSys := by
  have h := claim6_reset_amended wSys2 0 4 5 0 (by decide)
  exact ⟨h.1, h.2.1, h.2.2.2.2.1, h.2.2.2.2.2 cx6aSys 0 (by decide)⟩

/-- The listening scan over entries that neither equal the channel nor
iso-link with it takes the already-remembered free slot. -/
theorem listenScan_free (s : Sys) (c : ChanId) :
    ∀ (l : List (Option ChanId)) (i : Nat) (j : Nat),
      (∀ x ∈ l, x ≠ some c ∧ bt_audio_chan_iso_linked s x c = false) →
      listenScan s c l i (some j)
        = (0, { s with enabling := s.enabling.set j (some c) }) := by
  intro l
  induction l with
  | nil => intro i j h; rfl
  | cons x rest ih =>
    intro i j h
    have hx := h x (by simp)
    have hrest : ∀ y ∈ rest, y ≠ some c ∧ bt_audio_chan_iso_linked s y c = false :=
      fun y hy => h y (by simp [hy])
    simp only [listenScan, hx.1, hx.2, if_false, Bool.false_eq_true]
    have hfree : (if x = none ∧ (some j : Option Nat) = none then some i else some j)
        = some j := by simp
    rw [hfree]
    exact ih (i + 1) j hrest

/-- The listening scan over such entries with no free slot remembered yet
takes the first free slot of the remainder. -/
theorem listenScan_toFree (s : Sys) (c : ChanId) :
    ∀ (l : List (Option ChanId)) (i : Nat),
      (∀ x ∈ l, x ≠ some c ∧ bt_audio_chan_iso_linked s x c = false) →
      none ∈ l →
      listenScan s c l i none
        = (0, { s with enabling := s.enabling.set (i + firstFreeIdx l) (some c) }) := by
  intro l
  induction l with
  | nil => intro i h hmem; simp at hmem
  | cons x rest ih =>
    intro i h hmem
    have hx := h x (by simp)
    have hrest : ∀ y ∈ rest, y ≠ some c ∧ bt_audio_chan_iso_linked s y c = false :=
      fun y hy => h y (by simp [hy])
    by_cases hxn : x = none
    · subst hxn
      simp only [listenScan, hx.1, hx.2, if_false, Bool.false_eq_true, and_self,
        if_true, ite_true, eq_self_iff_true]
      rw [listenScan_free s c rest (i + 1) i hrest]
      simp [firstFreeIdx]
    · obtain ⟨d, hd⟩ : ∃ d, x = some d := by
        cases x with
        | none => exact absurd rfl hxn
        | some d => exact ⟨d, rfl⟩
      have hmem2 : none ∈ rest := by
        cases hmem with
        | head => exact absurd rfl hxn
        | tail _ hm => exact hm
      simp only [listenScan, hx.1, hx.2, if_false, Bool.false_eq_true, hxn,
        false_and, and_true, eq_self_iff_true, ite_false, if_false]
      rw [ih (i + 1) hrest hmem2, hd]
      have : i + 1 + firstFreeIdx rest = i + firstFreeIdx (some d :: rest) := by
        simp [firstFreeIdx]
        omega
      rw [this]

/-- The listening scan stops at the first iso-linked entry and links it
to the incoming channel, consuming no slot. -/
theorem listenScan_link (s : Sys) (b a : ChanId) (l2 : List (Option ChanId))
    (hab : a ≠ b) (hlk : bt_audio_chan_iso_linked s (some a) b = true) :
    ∀ (l1 : List (Option ChanId)) (i : Nat) (free : Option Nat),
      (∀ x ∈ l1, x ≠ some b ∧ bt_audio_chan_iso_linked s x b = false) →
      listenScan s b (l1 ++ some a :: l2) i free
        = (0, (bt_audio_chan_link s (some a) (some b)).2) := by
  intro l1
  induction l1 with
  | nil =>
    intro i free _
    have hne : (some a : Option ChanId) ≠ some b := by simp [hab]
    simp only [List.nil_append, listenScan, hne, if_false, hlk, if_true]
  | cons x rest ih =>
    intro i free h
    have hx := h x (by simp)
    have hrest : ∀ y ∈ rest, y ≠ some b ∧ bt_audio_chan_iso_linked s y b = false :=
      fun y hy => h y (by simp [hy])
    simp only [List.cons_append, listenScan, hx.1, hx.2, if_false, Bool.false_eq_true]
    exact ih (i + 1) _ hrest

/-- Decomposition of a pool list at its first free slot. -/
theorem ffi_decomp (x : Option ChanId) :
    ∀ l : List (Option ChanId), none ∈ l →
      ∃ l1 l2, l = l1 ++ none :: l2 ∧ (∀ y ∈ l1, y ≠ none) ∧
        firstFreeIdx l = l1.length ∧
        l.set (firstFreeIdx l) x = l1 ++ x :: l2 := by
  intro l
  induction l with
  | nil => intro h; simp at h
  | cons e rest ih =>
    intro h
    by_cases he : e = none
    · subst he
      exact ⟨[], rest, by simp, by simp, by simp [firstFreeIdx], by simp [firstFreeIdx]⟩
    · obtain ⟨d, hd⟩ : ∃ d, e = some d := by
        cases e with
        | none => exact absurd rfl he
        | some d => exact ⟨d, rfl⟩
      have hmem : none ∈ rest := by
        cases h with
        | head => exact absurd rfl he
        | tail _ hm => exact hm
      obtain ⟨l1, l2, hL, hno, hffi, hset⟩ := ih hmem
      refine ⟨e :: l1, l2, by simp [hL], ?_, ?_, ?_⟩
      · intro y hy
        rcases List.mem_cons.1 hy with hy | hy
        · rw [hy]; exact he
        · exact hno y hy
      · rw [hd]
        simp [firstFreeIdx, hffi]
      · rw [hd]
        simp only [firstFreeIdx, List.set]
        rw [← hd]
        have hffi2 : firstFreeIdx rest = l1.length := hffi
        rw [hffi2] at hset ⊢
        rw [hset]
        simp [hL]

/-- Counterexample to C5 as stated: both channels share the connection
and the (CIG, CIS) ids and both StartListening calls succeed, but since
the second channel is not channel-level Idle the silent link attempt
fails and the two channels are NOT linked. -/
theorem claim5_counterexample :
    (bt_audio_chan_iso_listen cx5Sys 0 0).1 = 0 ∧
    (bt_audio_chan_iso_listen (bt_audio_chan_iso_listen cx5Sys 0 0).2 1 0).1 = 0 ∧
    bt_audio_chan_iso_linked cx5Sys (some 0) 1 = true ∧
    (getChan cx5Sys 0).conn = (getChan cx5Sys 1).conn ∧
    ¬1 ∈ (getChan cx5After 0).links ∧
    ¬0 ∈ (getChan cx5After 1).links := by decide

/-- Claim C5 (amended): two distinct channel-level-Idle channels on the
same connection sharing (CIG id, CIS id), not yet linked, both calling
StartListening on a pool with a free slot and no other matching entry:
both calls succeed, the channels end up linked to each other, they occupy
exactly one pool slot between them, and the two calls together consume
exactly one slot. -/
theorem claim5_listen_pair_amended (s : Sys) (a b : ChanId)
    (ha : a < s.chans.length) (hb : b < s.chans.length) (hab : a ≠ b)
    (hsrv : s.server = true)
    (hia : (getChan s a).state = ChanState.idle)
    (hib : (getChan s b).state = ChanState.idle)
    (hiso : bt_audio_chan_iso_linked s (some a) b = true)
    (hnl : ¬b ∈ (getChan s a).links)
    (hpool : ∀ x ∈ s.enabling, x ≠ some a ∧ x ≠ some b ∧
      bt_audio_chan_iso_linked s x a = false ∧ bt_audio_chan_iso_linked s x b = false)
    (hfree : none ∈ s.enabling) :
    (bt_audio_chan_iso_listen s a 0).1 = 0 ∧
    (bt_audio_chan_iso_listen (bt_audio_chan_iso_listen s a 0).2 b 0).1 = 0 ∧
    b ∈ (getChan (bt_audio_chan_iso_listen
          (bt_audio_chan_iso_listen s a 0).2 b 0).2 a).links ∧
    a ∈ (getChan (bt_audio_chan_iso_listen
          (bt_audio_chan_iso_listen s a 0).2 b 0).2 b).links ∧
    ((bt_audio_chan_iso_listen (bt_audio_chan_iso_listen s a 0).2 b 0).2).enabling.countP
        (fun x => decide (x = some a ∨ x = some b)) = 1 ∧
    ((bt_audio_chan_iso_listen (bt_audio_chan_iso_listen s a 0).2 b 0).2).enabling.countP
        (fun x => x.isSome)
      = s.enabling.countP (fun x => x.isSome) + 1 := by
  obtain ⟨l1, l2, hL, hno, hffi, hset⟩ := ffi_decomp (some a) s.enabling hfree
  have hpool1 : ∀ x ∈ s.enabling, x ≠ some a ∧ bt_audio_chan_iso_linked s x a = false :=
    fun x hx => ⟨(hpool x hx).1, (hpool x hx).2.2.1⟩
  have h1 : bt_audio_chan_iso_listen s a 0
      = (0, { s with enabling := l1 ++ some a :: l2 }) := by
    unfold bt_audio_chan_iso_listen
    rw [if_pos hsrv]
    rw [listenScan_toFree s a s.enabling 0 hpool1 hfree]
    rw [Nat.zero_add, hset]
  rw [h1]
  set s1 : Sys := { s with enabling := l1 ++ some a :: l2 } with hs1
  have hia1 : (getChan s1 a).state = ChanState.idle := hia
  have hib1 : (getChan s1 b).state = ChanState.idle := hib
  have hiso1 : bt_audio_chan_iso_linked s1 (some a) b = true := hiso
  have hl1mem : ∀ x ∈ l1, x ≠ some b ∧ bt_audio_chan_iso_linked s1 x b = false := by
    intro x hx
    have hmem : x ∈ s.enabling := by
      rw [hL]
      exact List.mem_append_left _ hx
    exact ⟨(hpool x hmem).2.1, (hpool x hmem).2.2.2⟩
  have h2 : bt_audio_chan_iso_listen s1 b 0
      = (0, (bt_audio_chan_link s1 (some a) (some b)).2) := by
    unfold bt_audio_chan_iso_listen
    have hsrv1 : s1.server = true := hsrv
    rw [if_pos hsrv1]
    exact listenScan_link s1 b a l2 hab hiso1 l1 0 none hl1mem
  rw [h2]
  have hlinked : bt_audio_chan_linked s1 (some a) (some b) = false := by
    simp [bt_audio_chan_linked, hab]
    exact hnl
  have ha1 : a < s1.chans.length := ha
  have hb1 : b < s1.chans.length := hb
  refine ⟨rfl, rfl, ?_, ?_, ?_, ?_⟩
  · simp [bt_audio_chan_link, hia1, hib1, hlinked, getChan_setChan_ne,
      getChan_setChan_self, Ne.symm hab, hab, ha1, hb1]
  · simp [bt_audio_chan_link, hia1, hib1, hlinked, getChan_setChan_ne,
      getChan_setChan_self, Ne.symm hab, hab, ha1, hb1]
  · have hen : ((bt_audio_chan_link s1 (some a) (some b)).2).enabling
        = l1 ++ some a :: l2 := by
      simp [bt_audio_chan_link, hia1, hib1, hlinked]
    rw [hen, List.countP_append, List.countP_cons]
    have hz1 : l1.countP (fun x => decide (x = some a ∨ x = some b)) = 0 := by
      rw [List.countP_eq_zero]
      intro x hx
      have hmem : x ∈ s.enabling := by
        rw [hL]
        exact List.mem_append_left _ hx
      simp [(hpool x hmem).1, (hpool x hmem).2.1]
    have hz2 : l2.countP (fun x => decide (x = some a ∨ x = some b)) = 0 := by
      rw [List.countP_eq_zero]
      intro x hx
      have hmem : x ∈ s.enabling := by
        rw [hL]
        exact List.mem_append_right _ (List.mem_cons_of_mem _ hx)
      simp [(hpool x hmem).1, (hpool x hmem).2.1]
    simp only [Bool.decide_or] at hz1 hz2
    simp [hz1, hz2]
  · have hen : ((bt_audio_chan_link s1 (some a) (some b)).2).enabling
        = l1 ++ some a :: l2 := by
      simp [bt_audio_chan_link, hia1, hib1, hlinked]
    rw [hen, hL, List.countP_append, List.countP_cons, List.countP_append,
      List.countP_cons]
    simp
    omega

/-- Witness for C5 (amended): the two concrete matching Idle channels end
up linked in one pool slot. -/
theorem claim5_witness :
    (bt_audio_chan_iso_listen wSys5 0 0).1 = 0 ∧
    (bt_audio_chan_iso_listen (bt_audio_chan_iso_listen wSys5 0 0).2 1 0).1 = 0 ∧
    1 ∈ (getChan (bt_audio_chan_iso_listen
          (bt_audio_chan_iso_listen wSys5 0 0).2 1 0).2 0).links ∧
    0 ∈ (getChan (bt_audio_chan_iso_listen
          (bt_audio_chan_iso_listen wSys5 0 0).2 1 0).2 1).links ∧
    ((bt_audio_chan_iso_listen (bt_audio_chan_iso_listen wSys5 0 0).2 1 0).2).enabling.countP
        (fun x => decide (x = some 0 ∨ x = some 1)) = 1 ∧
    ((bt_audio_chan_iso_listen (bt_audio_chan_iso_listen wSys5 0 0).2 1 0).2).enabling.countP
        (fun x => x.isSome)
      = wSys5.enabling.countP (fun x => x.isSome) + 1 :=
  claim5_listen_pair_amended wSys5 0 1 (by decide) (by decide) (by decide) (by decide)
    (by decide) (by decide) (by decide) (by decide) (by decide) (by decide)

theorem disconnect_server (s : Sys) (c : ChanId) (d : Int) :
    ((bt_audio_chan_disconnect s c d).2).server = s.server := by
  unfold bt_audio_chan_disconnect
  cases (getChan s c).iso with
  | none => rfl
  | some i =>
    show (if i.bound = true then _ else _ : Int × Sys).2.server = s.server
    by_cases hb : i.bound = true <;> simp [hb]

theorem disconnect_ret (s : Sys) (c : ChanId) (d : Int) :
    (bt_audio_chan_disconnect s c d).1
      = if (getChan s c).isoUnbound then -ENOTCONN else d := by
  unfold bt_audio_chan_disconnect Chan.isoUnbound
  cases (getChan s c).iso with
  | none => simp
  | some i => by_cases hb : i.bound <;> simp [hb]

theorem disconnect_ret_ne (s : Sys) (c : ChanId) (d : Int)
    (h : (getChan s c).isoUnbound = true ∨ d ≠ 0) :
    (bt_audio_chan_disconnect s c d).1 ≠ 0 := by
  rw [disconnect_ret]
  by_cases hu : (getChan s c).isoUnbound = true
  · rw [if_pos hu]
    decide
  · rw [if_neg hu]
    rcases h with h | h
    · exact absurd h hu
    · exact h

/-- bt_audio_chan_iso_linked only reads the channels and the endpoints'
CIG/CIS ids. -/
theorem iso_linked_congr (s t : Sys) (hch : t.chans = s.chans)
    (hep2 : ∀ j, (getEp t j).cig_id = (getEp s j).cig_id ∧
                 (getEp t j).cis_id = (getEp s j).cis_id) :
    ∀ (x : Option ChanId) (c2 : ChanId),
      bt_audio_chan_iso_linked t x c2 = bt_audio_chan_iso_linked s x c2 := by
  intro x c2
  cases x with
  | none => rfl
  | some a =>
    have hgc : ∀ y, getChan t y = getChan s y := by
      intro y
      unfold getChan
      rw [hch]
    unfold bt_audio_chan_iso_linked chanEp
    dsimp only
    rw [hgc a, hgc c2]
    rw [(hep2 ((getChan s a).ep.getD 0)).1, (hep2 ((getChan s c2).ep.getD 0)).1,
      (hep2 ((getChan s a).ep.getD 0)).2, (hep2 ((getChan s c2).ep.getD 0)).2]

/-- bt_audio_ep_set_state preserves every endpoint's CIG/CIS ids. -/
theorem ep_set_state_cigcis (s : Sys) (e : EpId) (st : ASEState) :
    ∀ j, (getEp (bt_audio_ep_set_state s e st) j).cig_id = (getEp s j).cig_id ∧
         (getEp (bt_audio_ep_set_state s e st) j).cis_id = (getEp s j).cis_id := by
  intro j
  unfold bt_audio_ep_set_state
  rw [getEp_setEp]
  by_cases h : e = j ∧ e < s.eps.length
  · rw [if_pos h, ← h.1]
    exact ⟨rfl, rfl⟩
  · rw [if_neg h]
    exact ⟨rfl, rfl⟩

/-- The tail of a local Stop whose transport disconnect does not report
success: the endpoint is set to QoS Configured and the channel re-enters
the listening pool. -/
theorem listen_after_disc (t : Sys) (c : ChanId) (e : EpId) (isoDiscRes : Int)
    (hsrv : t.server = true)
    (helen : e < t.eps.length)
    (hpool2 : ∀ x ∈ t.enabling, x = some c ∨ bt_audio_chan_iso_linked t x c = false)
    (hfree2 : some c ∈ t.enabling ∨ none ∈ t.enabling) :
    (getEp (bt_audio_chan_iso_listen (bt_audio_ep_set_state
        (bt_audio_chan_disconnect t c isoDiscRes).2 e ASEState.qosConfigured) c 0).2
      e).state = ASEState.qosConfigured ∧
    some c ∈ ((bt_audio_chan_iso_listen (bt_audio_ep_set_state
        (bt_audio_chan_disconnect t c isoDiscRes).2 e ASEState.qosConfigured) c 0).2).enabling := by
  set tD : Sys := (bt_audio_chan_disconnect t c isoDiscRes).2 with htD
  set tQ : Sys := bt_audio_ep_set_state tD e ASEState.qosConfigured with htQ
  have htQ_en : tQ.enabling
      = t.enabling.map (fun x => if x = some c then none else x) := by
    rw [htQ]
    show tD.enabling = _
    rw [htD]
    exact disconnect_enabling t c isoDiscRes
  have htQ_srv : tQ.server = true := by
    rw [htQ]
    show tD.server = true
    rw [htD, disconnect_server]
    exact hsrv
  have htQ_ch : tQ.chans = t.chans := by
    rw [htQ]
    show tD.chans = t.chans
    rw [htD]
    exact disconnect_chans t c isoDiscRes
  have htQ_cig : ∀ j, (getEp tQ j).cig_id = (getEp t j).cig_id ∧
      (getEp tQ j).cis_id = (getEp t j).cis_id := by
    intro j
    rw [htQ]
    have h1 := ep_set_state_cigcis tD e ASEState.qosConfigured j
    have h2 : getEp tD j = getEp t j := by
      rw [htD]
      exact getEp_disconnect t c isoDiscRes j
    rw [h2] at h1
    exact h1
  have hlk : ∀ (x : Option ChanId) (c2 : ChanId),
      bt_audio_chan_iso_linked tQ x c2 = bt_audio_chan_iso_linked t x c2 :=
    iso_linked_congr t tQ htQ_ch htQ_cig
  have hscan : ∀ x ∈ tQ.enabling, x ≠ some c ∧
      bt_audio_chan_iso_linked tQ x c = false := by
    intro x hx
    rw [htQ_en] at hx
    obtain ⟨y, hy, hmap⟩ := List.mem_map.1 hx
    by_cases hyc : y = some c
    · rw [hyc] at hmap
      simp at hmap
      rw [← hmap]
      exact ⟨by simp, rfl⟩
    · rw [if_neg hyc] at hmap
      subst hmap
      refine ⟨hyc, ?_⟩
      rw [hlk]
      rcases hpool2 y hy with h | h
      · exact absurd h hyc
      · exact h
  have hfreeQ : none ∈ tQ.enabling := by
    rw [htQ_en]
    rcases hfree2 with h | h
    · exact List.mem_map.2 ⟨some c, h, by simp⟩
    · exact List.mem_map.2 ⟨none, h, by simp⟩
  have hlisten : bt_audio_chan_iso_listen tQ c 0
      = (0, { tQ with enabling := tQ.enabling.set (firstFreeIdx tQ.enabling) (some c) }) := by
    unfold bt_audio_chan_iso_listen
    rw [if_pos htQ_srv]
    rw [listenScan_toFree tQ c tQ.enabling 0 hscan hfreeQ]
    rw [Nat.zero_add]
  rw [hlisten]
  constructor
  · show (getEp tQ e).state = ASEState.qosConfigured
    rw [htQ]
    unfold bt_audio_ep_set_state
    rw [getEp_setEp]
    have he2 : e < tD.eps.length := by
      rw [htD, disconnect_eps]
      exact helen
    rw [if_pos ⟨rfl, he2⟩]
  · show some c ∈ tQ.enabling.set (firstFreeIdx tQ.enabling) (some c)
    obtain ⟨l1, l2, hL, hno, hffi, hset⟩ := ffi_decomp (some c) tQ.enabling hfreeQ
    rw [hset]
    simp

/-- Counterexample to C1 as stated: a successful Stop (return 0) on a
local Disabling channel whose transport binding is connected issues the
disconnect, but does NOT set the endpoint to QoS Configured and does NOT
re-enter the channel into the listening pool — the transition is left to
the asynchronous ISO disconnect path. -/
theorem claim1_counterexample :
    (bt_audio_chan_stop cx1Sys 0 0 0 0).1 = 0 ∧
    (getEp (bt_audio_chan_stop cx1Sys 0 0 0 0).2 0).state = ASEState.disabling ∧
    ¬(getEp (bt_audio_chan_stop cx1Sys 0 0 0 0).2 0).state = ASEState.qosConfigured ∧
    ¬some 0 ∈ ((bt_audio_chan_stop cx1Sys 0 0 0 0).2).enabling ∧
    Ev.isoDisc 0 ∈ ((bt_audio_chan_stop cx1Sys 0 0 0 0).2).evs := by decide

/-- Claim C1 (amended): a successful Stop on a local Disabling channel
sets the endpoint to QoS Configured and re-enters the channel into the
listening pool exactly when the transport disconnect does not report
success (no bound transport, or a failing disconnect); in particular the
round trip Configure, SetQoS, Enable, Start, Disable, Stop on a
never-connected channel returns 0 and leaves the endpoint in
QoS Configured with a listening-pool entry present. -/
theorem claim1_stop_amended (s : Sys) (c : ChanId) (e : EpId) (k : CapId) (ops : CapOps)
    (stopRes isoDiscRes : Int)
    (hep : (getChan s c).ep = some e)
    (hkind : (getEp s e).kind = EpKind.epLocal)
    (hcap : (getChan s c).cap = some k)
    (hops : (getCap s k).ops = some ops)
    (hstop : ops.has_stop = false ∨ stopRes = 0)
    (hst : (getEp s e).state = ASEState.disabling)
    (hsrv : s.server = true)
    (hdisc : (getChan s c).isoUnbound = true ∨ isoDiscRes ≠ 0)
    (hpool : ∀ x ∈ s.enabling, x = some c ∨ bt_audio_chan_iso_linked s x c = false)
    (hfree : some c ∈ s.enabling ∨ none ∈ s.enabling) :
    ((bt_audio_chan_stop s c stopRes isoDiscRes 0).1 = 0 ∧
     (getEp (bt_audio_chan_stop s c stopRes isoDiscRes 0).2 e).state
        = ASEState.qosConfigured ∧
     some c ∈ ((bt_audio_chan_stop s c stopRes isoDiscRes 0).2).enabling) ∧
    (rtStop.1 = 0 ∧ (getEp rtStop.2 0).state = ASEState.qosConfigured ∧
     some 0 ∈ (rtStop.2).enabling) := by
  have helen : e < s.eps.length := by
    by_contra h
    rw [getEp_default s e h] at hst
    simp at hst
  have hsrc : (getEp s e).isBroadcastSrc = false := by
    simp [Ep.isBroadcastSrc, hkind]
  have hsnk : (getEp s e).isBroadcastSnk = false := by
    simp [Ep.isBroadcastSnk, hkind]
  refine ⟨?_, by decide, by decide, by decide⟩
  by_cases hhs : ops.has_stop
  · have hsr : stopRes = 0 := hstop.resolve_left (by simp [hhs])
    subst hsr
    have hne := disconnect_ret_ne { s with evs := s.evs ++ [Ev.cb c CbKind.stop] } c
        isoDiscRes (by exact hdisc)
    have heq : bt_audio_chan_stop s c 0 isoDiscRes 0
        = (0, (bt_audio_chan_iso_listen (bt_audio_ep_set_state
            (bt_audio_chan_disconnect { s with evs := s.evs ++ [Ev.cb c CbKind.stop] }
              c isoDiscRes).2 e ASEState.qosConfigured) c 0).2) := by
      simp [bt_audio_chan_stop, hep, hsrc, hsnk, hcap, hops, hst, hkind, hhs, hne,
        getEp_withEvs, getChan_withEvs]
    rw [heq]
    have htail := listen_after_disc { s with evs := s.evs ++ [Ev.cb c CbKind.stop] }
        c e isoDiscRes (by exact hsrv) (by exact helen) (by exact hpool)
        (by exact hfree)
    exact ⟨rfl, htail.1, htail.2⟩
  · have hne := disconnect_ret_ne s c isoDiscRes hdisc
    have heq : bt_audio_chan_stop s c stopRes isoDiscRes 0
        = (0, (bt_audio_chan_iso_listen (bt_audio_ep_set_state
            (bt_audio_chan_disconnect s c isoDiscRes).2 e ASEState.qosConfigured) c 0).2) := by
      simp [bt_audio_chan_stop, hep, hsrc, hsnk, hcap, hops, hst, hkind, hhs, hne]
    rw [heq]
    have htail := listen_after_disc s c e isoDiscRes hsrv helen hpool hfree
    exact ⟨rfl, htail.1, htail.2⟩

/-- Witness for C1 (amended): Stop on the concrete unconnected Disabling
channel returns 0, sets QoS Configured and restores the pool entry. -/
theorem claim1_witness :
    (bt_audio_chan_stop wSys1 0 0 0 0).1 = 0 ∧
    (getEp (bt_audio_chan_stop wSys1 0 0 0 0).2 0).state = ASEState.qosConfigured ∧
    some 0 ∈ ((bt_audio_chan_stop wSys1 0 0 0 0).2).enabling :=
  (claim1_stop_amended wSys1 0 0 0 allOps 0 0 (by decide) (by decide) (by decide)
    (by decide) (Or.inr rfl) (by decide) (by decide) (by decide) (by decide)
    (by decide)).1

end AudioChan
